import Mathlib

/-!
# Verification of the Notion document-comment polling plugin

A shallow embedding of the plugin's core pipeline (file `plugin.ts`, in its
newer form): comment discovery, thread resolution, response dispatch and the
persisted processed-comment state.  External services (the Notion HTTP client,
the chat-completions responder, the wall clock) are modelled as explicit
environments; paginated remote listings are modelled as a sequence of response
rounds, each either a batch of results plus a `has_more` flag or an error.

Timestamps: the source sorts comments by `new Date(created_time).getTime()`;
the embedding carries the parsed numeric value directly as `created_time : Nat`.
URL decoding: the source applies `decodeURIComponent` before matching; the
embedding takes the already-decoded URL text as input.
-/

namespace NotionPlugin

/-- One rich-text run: plain text plus optional hyperlink targets
(`rt.text.link.url` flattened into `link`, and `rt.href`). -/
structure RichText where
  plain_text : String
  link : Option String
  href : Option String
  deriving Repr, DecidableEq

/-- A Notion comment as consumed by the plugin: identifier, discussion
(thread) identifier, parsed creation time, author id (`created_by.id`) and
rich-text body. -/
structure NotionComment where
  id : String
  discussion_id : String
  created_time : Nat
  created_by : String
  rich_text : List RichText
  deriving Repr, DecidableEq

/-- A content block: identifier, type tag, the `link_to_page.page_id` payload
when present, and the `block[block.type].rich_text` payload when present. -/
structure Block where
  id : String
  type : String
  link_to_page : Option String
  rich_text : Option (List RichText)
  deriving Repr, DecidableEq

/-- `extractTextFromComment`: concatenate the plain text of the runs. -/
def extractTextFromComment (c : NotionComment) : String :=
  String.join (c.rich_text.map (·.plain_text))

/-- `extractBlockText`: the block's own plain text, `""` when the block's
payload carries no `rich_text`. -/
def extractBlockText (b : Block) : String :=
  match b.rich_text with
  | none => ""
  | some rts => String.join (rts.map (·.plain_text))

/-! ## Link extraction (`extractPageLinks`) -/

/-- Case-insensitive hexadecimal digit, as in the `/[a-f0-9]/i` character
class. -/
def isHexChar (c : Char) : Bool :=
  ('0' ≤ c && c ≤ '9') || ('a' ≤ c && c ≤ 'f') || ('A' ≤ c && c ≤ 'F')

/-- ASCII whitespace, standing in for the `\s` class of the trailing-id
regex (the identifiers themselves never contain space characters). -/
def isSpaceChar (c : Char) : Bool :=
  c = ' ' || c = '\t' || c = '\n' || c = '\r'

/-- The match of `/([a-f0-9]{32})\s*$/i` on a character list: the last 32
characters before any trailing whitespace, provided they are all hex. -/
def trailingHex32 (cs : List Char) : Option (List Char) :=
  let t := (cs.reverse.dropWhile isSpaceChar).take 32
  if t.length = 32 && t.all isHexChar then some t.reverse else none

/-- Consume exactly `n` hex characters, returning the rest of the input. -/
def hexRun : Nat → List Char → Option (List Char)
  | 0, cs => some cs
  | _ + 1, [] => none
  | n + 1, c :: cs => if isHexChar c then hexRun n cs else none

/-- Does the UUID pattern `[a-f0-9]{8}-[a-f0-9]{4}-[a-f0-9]{4}-[a-f0-9]{4}-[a-f0-9]{12}`
(case-insensitive) match at the very start of `cs`? -/
def uuidAt (cs : List Char) : Bool :=
  (do
    let r ← hexRun 8 cs
    let r ← match r with | '-' :: r => some r | _ => none
    let r ← hexRun 4 r
    let r ← match r with | '-' :: r => some r | _ => none
    let r ← hexRun 4 r
    let r ← match r with | '-' :: r => some r | _ => none
    let r ← hexRun 4 r
    let r ← match r with | '-' :: r => some r | _ => none
    let _ ← hexRun 12 r
    pure ()).isSome

/-- Leftmost match of the UUID-shaped pattern anywhere in the input, as
`String.match` with an unanchored regex finds it. -/
def findUuid : List Char → Option (List Char)
  | [] => none
  | c :: cs => if uuidAt (c :: cs) then some ((c :: cs).take 36) else findUuid cs

/-- Hyphenate 32 hex characters into the canonical `8-4-4-4-12` grouping,
as the slice-and-join in `extractFromUrl` does. -/
def formatUuid (cs : List Char) : List Char :=
  cs.take 8 ++ '-' :: (cs.drop 8).take 4 ++ '-' :: (cs.drop 12).take 4
    ++ '-' :: (cs.drop 16).take 4 ++ '-' :: cs.drop 20

/-- `String.prototype.trim`: strip leading and trailing whitespace (modelled
on the ASCII whitespace set, which covers every string this pipeline
compares; defined structurally so that it evaluates by kernel reduction). -/
def jsTrim (s : String) : String :=
  String.mk ((s.data.dropWhile isSpaceChar).reverse.dropWhile isSpaceChar).reverse

/-- Push a value onto the accumulated id list unless already present
(the `if (!pageIds.includes(x)) pageIds.push(x)` idiom). -/
def pushUnique (acc : List String) (x : String) : List String :=
  if acc.contains x then acc else acc ++ [x]

/-- `extractFromUrl` on an already-decoded URL: first try the trailing
32-hex-character match (normalised to hyphenated form), then the UUID-shaped
match, pushing each hit that is not already known. -/
def extractFromUrl (acc : List String) (url : String) : List String :=
  let acc1 :=
    match trailingHex32 url.data with
    | some hex => pushUnique acc (String.mk (formatUuid hex))
    | none => acc
  match findUuid url.data with
  | some u => pushUnique acc1 (String.mk u)
  | none => acc1

/-- The per-run body of `processRichText`: scan the run's `text.link.url`
and then its `href` for page ids.  An empty URL string is falsy in the
source and is skipped. -/
def richTextStep (a : List String) (rt : RichText) : List String :=
  let a1 := match rt.link with
    | some u => if u = "" then a else extractFromUrl a u
    | none => a
  match rt.href with
  | some u => if u = "" then a1 else extractFromUrl a1 u
  | none => a1

/-- `processRichText`: scan each run for embedded hyperlinks. -/
def processRichText (acc : List String) (rts : List RichText) : List String :=
  rts.foldl richTextStep acc

/-- The per-block step of `extractPageLinks`. -/
def extractPageLinksStep (acc : List String) (b : Block) : List String :=
  if b.type = "child_page" then pushUnique acc b.id
  else if b.type = "child_database" then acc
  else if b.type = "link_to_page" then
    match b.link_to_page with
    | some linkedId => pushUnique acc linkedId
    | none => acc
  else
    match b.rich_text with
    | some rts => processRichText acc rts
    | none => acc

/-- `extractPageLinks`: fold the per-block extraction over the blocks of the
index page, accumulating a duplicate-free id list. -/
def extractPageLinks (blocks : List Block) : List String :=
  blocks.foldl extractPageLinksStep []

/-! ## Paginated fetchers (`getCommentsForBlock`, `getPageBlocks`) -/

/-- One response round of a paginated listing call: a batch of results plus
the `has_more` flag, or a thrown error. -/
inductive FetchRound (α : Type) where
  | ok (results : List α) (hasMore : Bool)
  | err
  deriving Repr, DecidableEq

/-- The accumulate-until-done loop shared by `getCommentsForBlock` and
`getPageBlocks`: push each successful batch; stop when `has_more` is false,
when the rounds run out, or when a round throws — the surrounding `try`
returns whatever was accumulated so far (errors are only logged). -/
def collectRounds {α : Type} : List (FetchRound α) → List α
  | [] => []
  | .err :: _ => []
  | .ok rs more :: rest => rs ++ (if more then collectRounds rest else [])

/-- The external world of one poll cycle: per-id response rounds for
`comments.list` and `blocks.children.list`, the `getPageTitle` result
(already `try`-caught to an `Option` in the source), and whether
`comments.create` succeeds for a given discussion id and reply text. -/
structure NotionEnv where
  commentRounds : String → List (FetchRound NotionComment)
  blockRounds : String → List (FetchRound Block)
  pageTitle : String → Option String
  replyOk : String → String → Bool

/-- `getCommentsForBlock`: paginated comment listing for a block or page id;
never raises, returns the partial accumulation on error. -/
def getCommentsForBlock (env : NotionEnv) (blockId : String) : List NotionComment :=
  collectRounds (env.commentRounds blockId)

/-- `getPageBlocks`: paginated child-block listing; never raises, returns the
partial accumulation on error. -/
def getPageBlocks (env : NotionEnv) (pageId : String) : List Block :=
  collectRounds (env.blockRounds pageId)

/-! ## Comment aggregation (`getAllCommentsForPage`) -/

/-- A comment together with its optional quoted block context. -/
structure CommentEntry where
  comment : NotionComment
  quote : Option String
  deriving Repr, DecidableEq

/-- The inline entries contributed by one block: non-commentable types are
skipped; otherwise the block's comments are tagged with the block's plain
text as quote — `quote || undefined` turns an empty text into no quote.
(The `blockComments.length > 0` guard in the source only avoids computing
the quote for an empty list and does not change the result.) -/
def inlineEntriesForBlock (env : NotionEnv) (b : Block) : List CommentEntry :=
  if b.type = "child_page" || b.type = "child_database" || b.type = "unsupported" then
    []
  else
    let quote := extractBlockText b
    (getCommentsForBlock env b.id).map
      (fun c => ⟨c, if quote = "" then none else some quote⟩)

/-- `getAllCommentsForPage`: page-level comments (no quote) followed by the
inline comments of every commentable block, each with its block's text as
quote. -/
def getAllCommentsForPage (env : NotionEnv) (pageId : String) : List CommentEntry :=
  (getCommentsForBlock env pageId).map (fun c => ⟨c, none⟩)
    ++ (getPageBlocks env pageId).flatMap (inlineEntriesForBlock env)

/-! ## Responder dispatch (`callChatCompletions`, `callAI`,
`processCommentWithAgent`) -/

/-- The configuration fields the polling core reads. -/
structure PluginConfig where
  enabled : Bool
  indexPage : Option String
  watchedPages : List String
  integrationUserId : Option String
  aiBaseUrl : Option String
  aiApiKey : Option String
  aiApiKeyEnv : Option String
  aiModel : Option String
  useGatewayChatCompletions : Option Bool
  gatewayBaseUrl : Option String
  gatewayApiKey : Option String
  gatewayApiKeyEnv : Option String
  systemPrompt : Option String

/-- The responder-side world: `process.env`, and the chat-completions call
keyed by base URL, api key, model, system prompt and user prompt.  An `ok`
value is the assistant text extracted from the response body (possibly
empty); `error` is a network failure or non-2xx status, which the source
surfaces as a thrown exception. -/
structure AIEnv where
  envVars : String → String
  chat : String → String → String → String → String → Except Unit String

/-- `getEnv`: an absent or empty variable name reads as `""`. -/
def getEnv (env : AIEnv) (name : Option String) : String :=
  match name with
  | none => ""
  | some n => if n = "" then "" else env.envVars n

/-- `firstNonEmpty`: the first defined value whose trim is nonempty,
trimmed; `""` when none qualifies. -/
def firstNonEmpty : List (Option String) → String
  | [] => ""
  | none :: rest => firstNonEmpty rest
  | some v :: rest => if jsTrim v = "" then firstNonEmpty rest else jsTrim v

/-- `normalizeBaseUrl`: strip trailing slashes. -/
def normalizeBaseUrl (baseUrl : String) : String :=
  String.mk (baseUrl.data.reverse.dropWhile (· = '/')).reverse

/-- The empty-assistant-text fallback returned by `callChatCompletions`. -/
def emptyAnswerFallback : String := "抱歉，我暂时无法处理这条评论。"

/-- `callChatCompletions`: perform the chat call against the normalised base
URL; a failed call propagates as an error, an empty assistant text is
replaced by a fixed fallback sentence. -/
def callChatCompletions (env : AIEnv) (baseUrl apiKey model systemPrompt prompt : String) :
    Except Unit String :=
  match env.chat (normalizeBaseUrl baseUrl) apiKey model systemPrompt prompt with
  | .error e => .error e
  | .ok t => .ok (if t = "" then emptyAnswerFallback else t)

/-- Default system prompt of `callAI`. -/
def defaultSystemPrompt : String :=
  "你是一个友好、专业的 AI 助手。用户在 Notion 文档中发表了评论，请用简洁的中文回复。不要使用 Markdown 格式。"

/-- Apology returned when the gateway fails and no external key is set. -/
def gatewayDownApology : String := "抱歉，AI 网关暂时不可用，请稍后再试。"

/-- Apology returned when no responder is configured at all. -/
def notConfiguredApology : String := "抱歉，AI 回复功能未配置。"

/-- Apology substituted by `processCommentWithAgent` when `callAI` throws. -/
def agentFailedApology : String := "抱歉，处理评论时遇到了问题，请稍后再试。"

/-- JS truthiness of an optional string: defined and nonempty. -/
def strTruthy (s : Option String) : Bool :=
  match s with
  | none => false
  | some v => v ≠ ""

/-- `callAI`: try the local gateway first unless disabled; on gateway failure
fall back to the external API when a key is available, otherwise apologise;
an external-call failure propagates. -/
def callAI (env : AIEnv) (config : PluginConfig) (prompt : String) : Except Unit String :=
  let systemPrompt := if strTruthy config.systemPrompt then config.systemPrompt.getD ""
    else defaultSystemPrompt
  let useGateway := config.useGatewayChatCompletions ≠ some false
  let gatewayModel := if strTruthy config.aiModel then config.aiModel.getD ""
    else "openclaw:friday"
  let externalModel :=
    if strTruthy config.aiModel && !(config.aiModel.getD "").startsWith "openclaw:" then
      config.aiModel.getD ""
    else "gpt-5.3-codex-xhigh"
  let gatewayBaseUrl := if strTruthy config.gatewayBaseUrl then config.gatewayBaseUrl.getD ""
    else "http://127.0.0.1:18789/v1"
  let gatewayApiKey := firstNonEmpty [config.gatewayApiKey, some (getEnv env config.gatewayApiKeyEnv)]
  let externalBaseUrl := if strTruthy config.aiBaseUrl then config.aiBaseUrl.getD ""
    else "https://right.codes/codex/v1"
  let externalApiKey := firstNonEmpty [config.aiApiKey, some (getEnv env config.aiApiKeyEnv)]
  let externalCall : Except Unit String :=
    if externalApiKey = "" then .ok notConfiguredApology
    else callChatCompletions env externalBaseUrl externalApiKey externalModel systemPrompt prompt
  if useGateway then
    match callChatCompletions env gatewayBaseUrl gatewayApiKey gatewayModel systemPrompt prompt with
    | .ok t => .ok t
    | .error _ => if externalApiKey = "" then .ok gatewayDownApology else externalCall
  else
    externalCall

/-- The four prompt templates of `processCommentWithAgent`, keyed on the JS
truthiness of `quote` and `pageTitle`. -/
def buildPrompt (commentText : String) (pageTitle quote : Option String) : String :=
  if strTruthy quote then
    if strTruthy pageTitle then
      "用户在 Notion 页面「" ++ pageTitle.getD "" ++ "」中对以下内容划词评论：\n\n引用内容：「"
        ++ quote.getD "" ++ "」\n\n评论：" ++ commentText ++ "\n\n请回复这条评论。"
    else
      "用户在 Notion 文档中对以下内容划词评论：\n\n引用内容：「" ++ quote.getD ""
        ++ "」\n\n评论：" ++ commentText ++ "\n\n请回复这条评论。"
  else
    if strTruthy pageTitle then
      "用户在 Notion 页面「" ++ pageTitle.getD "" ++ "」中发表了评论：" ++ commentText
        ++ "\n\n请回复这条评论。"
    else
      "用户在 Notion 文档中发表了评论：" ++ commentText ++ "\n\n请回复这条评论。"

/-- `processCommentWithAgent`: build the prompt, call the responder, and
catch any failure into a fixed apology — this function never raises. -/
def processCommentWithAgent (env : AIEnv) (config : PluginConfig)
    (commentText : String) (pageTitle quote : Option String) : String :=
  match callAI env config (buildPrompt commentText pageTitle quote) with
  | .ok t => t
  | .error _ => agentFailedApology

/-! ## Persisted state (`ProcessedState`, `loadState`/`saveState`) -/

/-- The durable record: last completed poll time and, per page id, the list
of processed comment ids (a JS object modelled as an association list with
unique keys). -/
structure ProcessedState where
  lastPollTime : Nat
  processedComments : List (String × List String)
  deriving Repr, DecidableEq

/-- `state.processedComments[pageId] || []`. -/
def lookupIds (m : List (String × List String)) (p : String) : List String :=
  match m.find? (fun kv => kv.1 = p) with
  | some kv => kv.2
  | none => []

/-- `state.processedComments[pageId] = ids`: overwrite the binding, adding it
at the end when the key is new (JS object insertion order). -/
def setAssoc (m : List (String × List String)) (p : String) (v : List String) :
    List (String × List String) :=
  match m with
  | [] => [(p, v)]
  | (k, w) :: rest => if k = p then (k, v) :: rest else (k, w) :: setAssoc rest p v

/-! ## Thread resolution (`groupByDiscussion`, sort, per-thread loop) -/

/-- Append a comment to its discussion's group, creating the group at the end
on first sight (insertion-ordered `Map` semantics). -/
def addToGroup (groups : List (String × List NotionComment)) (key : String)
    (c : NotionComment) : List (String × List NotionComment) :=
  match groups with
  | [] => [(key, [c])]
  | (k, cs) :: rest =>
    if k = key then (k, cs ++ [c]) :: rest else (k, cs) :: addToGroup rest key c

/-- `groupByDiscussion`: group the comments by discussion id, first-seen
order, preserving each group's input order. -/
def groupByDiscussion (comments : List NotionComment) : List (String × List NotionComment) :=
  comments.foldl (fun gs c => addToGroup gs c.discussion_id c) []

/-- Stable insertion step for the ascending sort by creation time. -/
def insertByTime (c : NotionComment) : List NotionComment → List NotionComment
  | [] => [c]
  | d :: ds =>
    if c.created_time ≤ d.created_time then c :: d :: ds else d :: insertByTime c ds

/-- The in-place `threadComments.sort((a, b) => timeA - timeB)`: a stable
ascending sort by creation time. -/
def sortByTime : List NotionComment → List NotionComment
  | [] => []
  | c :: cs => insertByTime c (sortByTime cs)

/-- The last element of the input attaining the maximum creation time — the
specification-side description of "latest comment" (ties keep original
relative order, so the latest is the last tie). -/
def lastMax : List NotionComment → Option NotionComment
  | [] => none
  | c :: cs =>
    match lastMax cs with
    | none => some c
    | some m => some (if m.created_time < c.created_time then c else m)

/-- The self-authored test `integrationUserId && created_by.id === integrationUserId`. -/
def isSelfAuthored (uid : Option String) (c : NotionComment) : Bool :=
  match uid with
  | none => false
  | some u => u ≠ "" && c.created_by = u

/-- Observable actions of a cycle: one responder invocation
(`processCommentWithAgent`) and one reply post (`comments.create`), each
tagged with the discussion being handled. -/
inductive Effect where
  | respond (discussionId : String) (prompt : String)
  | reply (discussionId : String) (text : String)
  deriving Repr, DecidableEq

/-- The `quoteMap` of the per-page loop, with `Map.set` overwrite semantics. -/
def quoteMapSet (m : List (String × String)) (k v : String) : List (String × String) :=
  match m with
  | [] => [(k, v)]
  | (k', w) :: rest => if k' = k then (k', v) :: rest else (k', w) :: quoteMapSet rest k v

/-- Build `discussion_id -> quote` from the aggregated entries. -/
def buildQuoteMap (entries : List CommentEntry) : List (String × String) :=
  entries.foldl
    (fun m e =>
      match e.quote with
      | some q => quoteMapSet m e.comment.discussion_id q
      | none => m) []

/-- `quoteMap.get(discussionId)`. -/
def quoteLookup (m : List (String × String)) (k : String) : Option String :=
  (m.find? (fun kv => kv.1 = k)).map (·.2)

/-- The body of the per-discussion loop of `pollNotionComments`: sort the
thread, take the latest comment, and either leave it (already processed),
mark it processed without replying (self-authored or empty text), or answer:
invoke the responder and post the reply, recording the id only when the post
succeeds.  Returns the updated processed-id list and the emitted effects.
(A discussion group is never empty, see `groupByDiscussion_mem_ne_nil`;
the `none` branch is unreachable from the pipeline.) -/
def runThread (env : NotionEnv) (ai : AIEnv) (config : PluginConfig) (uid : Option String)
    (pageId : String) (quoteMap : List (String × String)) (ids : List String)
    (discussionId : String) (tc : List NotionComment) : List String × List Effect :=
  match (sortByTime tc).getLast? with
  | none => (ids, [])
  | some latest =>
    if ids.contains latest.id then (ids, [])
    else if isSelfAuthored uid latest then (ids ++ [latest.id], [])
    else
      let commentText := extractTextFromComment latest
      if jsTrim commentText = "" then (ids ++ [latest.id], [])
      else
        let quote := quoteLookup quoteMap discussionId
        let pageTitle := env.pageTitle pageId
        let response := processCommentWithAgent ai config commentText pageTitle quote
        ((if env.replyOk discussionId response then ids ++ [latest.id] else ids),
          [.respond discussionId (buildPrompt commentText pageTitle quote),
            .reply discussionId response])

/-- The `for (const [discussionId, threadComments] of discussions)` loop:
thread the processed-id list through the discussions in order, collecting the
effects. -/
def runThreads (env : NotionEnv) (ai : AIEnv) (config : PluginConfig) (uid : Option String)
    (pageId : String) (quoteMap : List (String × String)) (ids : List String) :
    List (String × List NotionComment) → List String × List Effect
  | [] => (ids, [])
  | g :: gs =>
    let r1 := runThread env ai config uid pageId quoteMap ids g.1 g.2
    let r2 := runThreads env ai config uid pageId quoteMap r1.1 gs
    (r2.1, r1.2 ++ r2.2)

/-- The per-page body of `pollNotionComments`: aggregate the page's comments,
build the quote map, group into discussions, run each thread, and store the
page's updated processed-id list back into the state. -/
def runPage (env : NotionEnv) (ai : AIEnv) (config : PluginConfig) (uid : Option String)
    (st : ProcessedState) (pageId : String) : ProcessedState × List Effect :=
  let entries := getAllCommentsForPage env pageId
  let ids0 := lookupIds st.processedComments pageId
  let quoteMap := buildQuoteMap entries
  let discussions := groupByDiscussion (entries.map (·.comment))
  let r := runThreads env ai config uid pageId quoteMap ids0 discussions
  ({ st with processedComments := setAssoc st.processedComments pageId r.1 }, r.2)

/-- `getWatchedPagesFromIndex`: empty block list (unreachable or empty page)
yields the empty list as the fall-back signal. -/
def getWatchedPagesFromIndex (env : NotionEnv) (indexPageId : String) : List String :=
  let blocks := getPageBlocks env indexPageId
  if blocks.isEmpty then [] else extractPageLinks blocks

/-- Watch-list resolution of `pollNotionComments`: index page when configured,
falling back to the static `watchedPages` when discovery is empty. -/
def resolveWatchedPages (env : NotionEnv) (config : PluginConfig) : List String :=
  let fromIndex :=
    if strTruthy config.indexPage then getWatchedPagesFromIndex env (config.indexPage.getD "")
    else []
  if fromIndex.isEmpty && !config.watchedPages.isEmpty then config.watchedPages else fromIndex

/-- The `for (const pageId of watchedPages)` loop: process every watched page
in order, threading the in-memory state, collecting the effects. -/
def runPages (env : NotionEnv) (ai : AIEnv) (config : PluginConfig) (uid : Option String)
    (st : ProcessedState) : List String → ProcessedState × List Effect
  | [] => (st, [])
  | p :: ps =>
    let r1 := runPage env ai config uid st p
    let r2 := runPages env ai config uid r1.1 ps
    (r2.1, r1.2 ++ r2.2)

/-- One full poll cycle (`pollNotionComments`), taking the state read by
`loadState` and returning the state on disk after the cycle together with the
cycle's effects.  Disabled plugin and empty watch list return before
`saveState`, leaving the disk untouched; otherwise every watched page is
processed in order, `lastPollTime` is set to the current clock, and the state
is saved once. -/
def pollCycle (env : NotionEnv) (ai : AIEnv) (config : PluginConfig) (uid : Option String)
    (now : Nat) (disk : ProcessedState) : ProcessedState × List Effect :=
  if !config.enabled then (disk, [])
  else
    let watched := resolveWatchedPages env config
    if watched.isEmpty then (disk, [])
    else
      let r := runPages env ai config uid disk watched
      ({ r.1 with lastPollTime := now }, r.2)

/-- Number of reply posts to a given discussion among the effects. -/
def countReply (d : String) (effs : List Effect) : Nat :=
  (effs.filter (fun e => match e with | .reply d' _ => d' = d | _ => false)).length

/-- Number of responder invocations for a given discussion among the effects. -/
def countRespond (d : String) (effs : List Effect) : Nat :=
  (effs.filter (fun e => match e with | .respond d' _ => d' = d | _ => false)).length

/-! ## Specification-side descriptions used for comparison -/

/-- Spec side: the ids a single hyperlink URL contributes — the trailing
32-hex match normalised to hyphenated form, and/or the UUID-shaped match,
in that order. -/
def specUrlCandidates (url : String) : List String :=
  (match trailingHex32 url.data with
    | some hex => [String.mk (formatUuid hex)]
    | none => []) ++
  (match findUuid url.data with
    | some u => [String.mk u]
    | none => [])

/-- Spec side: the ids one rich-text run contributes, from its embedded
link and `href`. -/
def specRichTextCandidates (rt : RichText) : List String :=
  (match rt.link with
    | some u => if u = "" then [] else specUrlCandidates u
    | none => []) ++
  (match rt.href with
    | some u => if u = "" then [] else specUrlCandidates u
    | none => [])

/-- Spec side: the ids one block contributes — child-page blocks their own
id, link-to-page blocks the referenced page id, child-database blocks
nothing, other blocks the candidates of their rich-text hyperlinks. -/
def specBlockCandidates (b : Block) : List String :=
  if b.type = "child_page" then [b.id]
  else if b.type = "child_database" then []
  else if b.type = "link_to_page" then
    (match b.link_to_page with | some i => [i] | none => [])
  else
    match b.rich_text with
    | some rts => rts.flatMap specRichTextCandidates
    | none => []

/-- Spec side: deduplication keeping the first occurrence of each value. -/
def dedupKeepFirst (l : List String) : List String := l.foldl pushUnique []

/-- Replace every paginated listing of `env` by a single error-free round
returning exactly what the original (possibly failing) listing accumulated.
Comparing a cycle on `env` with one on `purifyEnv env` shows that fetch
failures behave as truncated data, not as skipped pages. -/
def purifyEnv (env : NotionEnv) : NotionEnv :=
  { env with
    commentRounds := fun b => [FetchRound.ok (collectRounds (env.commentRounds b)) false],
    blockRounds := fun p => [FetchRound.ok (collectRounds (env.blockRounds p)) false] }

/-- Abbreviation: the prompt built for a thread whose latest comment is `L`. -/
def threadPrompt (env : NotionEnv) (pageId : String) (qm : List (String × String))
    (d : String) (L : NotionComment) : String :=
  buildPrompt (extractTextFromComment L) (env.pageTitle pageId) (quoteLookup qm d)

/-- Abbreviation: the reply text computed for a thread whose latest comment
is `L`. -/
def threadResponse (env : NotionEnv) (ai : AIEnv) (config : PluginConfig) (pageId : String)
    (qm : List (String × String)) (d : String) (L : NotionComment) : String :=
  processCommentWithAgent ai config (extractTextFromComment L)
    (env.pageTitle pageId) (quoteLookup qm d)

/-! ## Concrete environments used in instances and counterexamples -/

/-- The environment of the C8 counterexample: one paragraph block whose
rich-text list is present but empty (plain text `""`), carrying one inline
comment; no page-level comments. -/
def c8Env : NotionEnv where
  commentRounds := fun b =>
    if b = "b0" then [FetchRound.ok [⟨"c0", "d0", 3, "alice", []⟩] false] else []
  blockRounds := fun p =>
    if p = "page" then [FetchRound.ok [⟨"b0", "paragraph", none, some []⟩] false] else []
  pageTitle := fun _ => none
  replyOk := fun _ _ => true

/-- Environment of the C8 example: one page-level comment and one inline
comment on a block reading "Revenue grew 12%". -/
def c8RevenueEnv : NotionEnv where
  commentRounds := fun b =>
    if b = "pg" then [FetchRound.ok [⟨"cp", "dp", 1, "bob", []⟩] false]
    else if b = "rb" then [FetchRound.ok [⟨"ci", "di", 2, "eve", []⟩] false]
    else []
  blockRounds := fun p =>
    if p = "pg" then
      [FetchRound.ok [⟨"rb", "paragraph", none,
        some [⟨"Revenue grew 12%", none, none⟩]⟩] false]
    else []
  pageTitle := fun _ => none
  replyOk := fun _ _ => true

/-- A two-comment discussion "d": the earlier comment. -/
def wComment1 : NotionComment := ⟨"c1", "d", 1, "u1", [⟨"hi", none, none⟩]⟩

/-- A two-comment discussion "d": the later (latest) comment. -/
def wComment2 : NotionComment := ⟨"c2", "d", 2, "u2", [⟨"yo", none, none⟩]⟩

/-- Witness environment: one watched page "p" carrying the two comments of
discussion "d" at page level; replies always succeed. -/
def wNotionEnv : NotionEnv where
  commentRounds := fun b =>
    if b = "p" then [FetchRound.ok [wComment1, wComment2] false] else []
  blockRounds := fun _ => []
  pageTitle := fun _ => none
  replyOk := fun _ _ => true

/-- Witness responder environment: every chat call answers "R". -/
def wAIEnv : AIEnv where
  envVars := fun _ => ""
  chat := fun _ _ _ _ _ => .ok "R"

/-- Witness configuration: enabled, static watch list ["p"], gateway on. -/
def wConfig : PluginConfig where
  enabled := true
  indexPage := none
  watchedPages := ["p"]
  integrationUserId := some "bot"
  aiBaseUrl := none
  aiApiKey := none
  aiApiKeyEnv := none
  aiModel := none
  useGatewayChatCompletions := some true
  gatewayBaseUrl := none
  gatewayApiKey := none
  gatewayApiKeyEnv := none
  systemPrompt := none

/-- Witness environment in which every reply post fails. -/
def wFailEnv : NotionEnv where
  commentRounds := fun b =>
    if b = "p" then [FetchRound.ok [wComment1, wComment2] false] else []
  blockRounds := fun _ => []
  pageTitle := fun _ => none
  replyOk := fun _ _ => false

/-- A comment authored by the integration user id "bot". -/
def wBotComment : NotionComment := ⟨"cb", "d", 3, "bot", [⟨"ping", none, none⟩]⟩

/-- Environment of the C4 counterexample: fetching page "p"'s block list
fails outright, and its page-level comment listing fails after one
successful round. -/
def c4Env : NotionEnv where
  commentRounds := fun b =>
    if b = "p" then [FetchRound.ok [wComment1] true, FetchRound.err] else []
  blockRounds := fun _ => [FetchRound.err]
  pageTitle := fun _ => none
  replyOk := fun _ _ => true

/-- `state.processedComments` carries a binding for page `p`. -/
def hasKey (m : List (String × List String)) (p : String) : Prop :=
  ∃ kv ∈ m, kv.1 = p

/-! ## Lemmas: link extraction -/

theorem mem_pushUnique {acc : List String} {x y : String} :
    y ∈ pushUnique acc x ↔ y ∈ acc ∨ y = x := by
  unfold pushUnique
  split
  · next h =>
    constructor
    · exact Or.inl
    · rintro (hy | rfl)
      · exact hy
      · simpa using h
  · simp

theorem pushUnique_nodup {acc : List String} (x : String) (h : acc.Nodup) :
    (pushUnique acc x).Nodup := by
  unfold pushUnique
  split
  · exact h
  · next hx =>
    have : x ∉ acc := by simpa using hx
    simpa [List.nodup_append, h] using this

theorem foldl_pushUnique_mem {l : List String} {acc : List String} {y : String} :
    y ∈ l.foldl pushUnique acc ↔ y ∈ acc ∨ y ∈ l := by
  induction l generalizing acc with
  | nil => simp
  | cons x xs ih =>
    simp only [List.foldl_cons, ih, mem_pushUnique, List.mem_cons]
    tauto

theorem foldl_pushUnique_nodup (l : List String) {acc : List String} (h : acc.Nodup) :
    (l.foldl pushUnique acc).Nodup := by
  induction l generalizing acc with
  | nil => exact h
  | cons x xs ih => exact ih (pushUnique_nodup x h)

theorem extractFromUrl_eq_spec (acc : List String) (url : String) :
    extractFromUrl acc url = (specUrlCandidates url).foldl pushUnique acc := by
  unfold extractFromUrl specUrlCandidates
  cases trailingHex32 url.data <;> cases findUuid url.data <;> simp

theorem richTextStep_eq_spec (acc : List String) (rt : RichText) :
    richTextStep acc rt = (specRichTextCandidates rt).foldl pushUnique acc := by
  unfold richTextStep specRichTextCandidates
  cases rt.link with
  | none =>
    cases rt.href with
    | none => simp
    | some u => by_cases hu : u = "" <;> simp [hu, extractFromUrl_eq_spec]
  | some v =>
    cases rt.href with
    | none =>
      by_cases hv : v = "" <;> simp [hv, extractFromUrl_eq_spec, List.foldl_append]
    | some u =>
      by_cases hv : v = "" <;> by_cases hu : u = "" <;>
        simp [hv, hu, extractFromUrl_eq_spec, List.foldl_append]

theorem processRichText_eq_spec (rts : List RichText) (acc : List String) :
    processRichText acc rts = (rts.flatMap specRichTextCandidates).foldl pushUnique acc := by
  induction rts generalizing acc with
  | nil => simp [processRichText]
  | cons rt rts ih =>
    simp only [processRichText, List.foldl_cons, List.flatMap_cons, List.foldl_append,
      richTextStep_eq_spec]
    exact ih _

theorem extractPageLinksStep_eq_spec (acc : List String) (b : Block) :
    extractPageLinksStep acc b = (specBlockCandidates b).foldl pushUnique acc := by
  unfold extractPageLinksStep specBlockCandidates
  split
  · simp [List.foldl_cons]
  · split
    · simp
    · split
      · cases b.link_to_page <;> simp
      · cases b.rich_text with
        | none => simp
        | some rts => simpa using processRichText_eq_spec rts acc

theorem extractPageLinks_foldl_eq (blocks : List Block) (acc : List String) :
    blocks.foldl extractPageLinksStep acc
      = (blocks.flatMap specBlockCandidates).foldl pushUnique acc := by
  induction blocks generalizing acc with
  | nil => simp
  | cons b bs ih =>
    simp only [List.foldl_cons, List.flatMap_cons, List.foldl_append,
      extractPageLinksStep_eq_spec, ih]

/-- C5: link extraction returns the first-occurrence-wins deduplication of
the per-block contributions (child-page ids, link-to-page targets, nothing
for child databases, trailing-32-hex/UUID hyperlink matches), the result is
duplicate-free, its members are exactly the contributed ids, and on the
claim's concrete index page (child-page block B1, link-to-page block
referencing P2, a paragraph hyperlink ending in 32 hex characters) it is
exactly [B1, P2, hyphenated hex], each once. -/
theorem claim_C5_link_extraction :
    (∀ blocks : List Block,
      extractPageLinks blocks = dedupKeepFirst (blocks.flatMap specBlockCandidates))
    ∧ (∀ blocks : List Block, (extractPageLinks blocks).Nodup)
    ∧ (∀ (blocks : List Block) (x : String),
        x ∈ extractPageLinks blocks ↔ x ∈ blocks.flatMap specBlockCandidates)
    ∧ extractPageLinks
        [⟨"b1-id", "child_page", none, none⟩,
          ⟨"link-block", "link_to_page", some "p2-id", none⟩,
          ⟨"b3", "paragraph", none,
            some [⟨"see here",
              some "https://host/Title-0123456789abcdef0123456789abcdef", none⟩]⟩]
      = ["b1-id", "p2-id", "01234567-89ab-cdef-0123-456789abcdef"] := by
  refine ⟨fun blocks => extractPageLinks_foldl_eq blocks [], fun blocks => ?_, fun blocks x => ?_, by rfl⟩
  · rw [extractPageLinks, extractPageLinks_foldl_eq]
    exact foldl_pushUnique_nodup _ List.nodup_nil
  · rw [extractPageLinks, extractPageLinks_foldl_eq, foldl_pushUnique_mem]
    simp

/-! ## Lemmas: paginated fetchers -/

theorem collectRounds_ok_prefix_err {α : Type} (batches : List (List α))
    (rest : List (FetchRound α)) :
    collectRounds (batches.map (fun b => FetchRound.ok b true) ++ FetchRound.err :: rest)
      = batches.flatten := by
  induction batches with
  | nil => simp [collectRounds]
  | cons b bs ih => simp [collectRounds, ih]

/-- C10: the comment-listing and block-listing fetchers are total functions
of the response rounds (they never propagate an error), and when a round
fails after a prefix of successful rounds they return exactly the items
accumulated over that prefix — in particular a nonempty partial list when
the prefix held any item — so the page is subsequently processed against
this partial data. -/
theorem claim_C10_partial_fetch :
    (∀ (env : NotionEnv) (blockId : String) (batches : List (List NotionComment))
        (rest : List (FetchRound NotionComment)),
      env.commentRounds blockId
          = batches.map (fun b => FetchRound.ok b true) ++ FetchRound.err :: rest →
        getCommentsForBlock env blockId = batches.flatten)
    ∧ (∀ (env : NotionEnv) (pageId : String) (batches : List (List Block))
        (rest : List (FetchRound Block)),
      env.blockRounds pageId
          = batches.map (fun b => FetchRound.ok b true) ++ FetchRound.err :: rest →
        getPageBlocks env pageId = batches.flatten
        ∧ (batches.flatten ≠ [] → getPageBlocks env pageId ≠ [])) := by
  refine ⟨fun env blockId batches rest h => ?_, fun env pageId batches rest h => ?_⟩
  · rw [getCommentsForBlock, h, collectRounds_ok_prefix_err]
  · rw [getPageBlocks, h, collectRounds_ok_prefix_err]
    exact ⟨rfl, fun hne => hne⟩

/-- Witness for C10 at a concrete erring environment: one successful round
of one comment, then an error, yields exactly that comment. -/
theorem claim_C10_partial_fetch_witness :
    getCommentsForBlock
      { commentRounds := fun _ =>
          [FetchRound.ok [⟨"c1", "d1", 5, "alice", []⟩] true, FetchRound.err],
        blockRounds := fun _ => [],
        pageTitle := fun _ => none,
        replyOk := fun _ _ => true } "blk"
    = [⟨"c1", "d1", 5, "alice", []⟩] := by
  exact claim_C10_partial_fetch.1 _ "blk" [[⟨"c1", "d1", 5, "alice", []⟩]] [] rfl

/-! ## Lemmas: comment aggregation and quote attachment -/

/-- Counterexample to C8 as stated: the inline comment `c0` is anchored to
block `b0` whose plain text is `""`, yet its entry carries no quoted context
(`none`) rather than that plain text (`some ""`) — `quote || undefined`
drops an empty quote. -/
theorem claim_C8_counterexample :
    (⟨"b0", "paragraph", none, some []⟩ : Block) ∈ getPageBlocks c8Env "page"
    ∧ (⟨"c0", "d0", 3, "alice", []⟩ : NotionComment) ∈ getCommentsForBlock c8Env "b0"
    ∧ extractBlockText ⟨"b0", "paragraph", none, some []⟩ = ""
    ∧ getAllCommentsForPage c8Env "page" = [⟨⟨"c0", "d0", 3, "alice", []⟩, none⟩]
    ∧ CommentEntry.mk ⟨"c0", "d0", 3, "alice", []⟩
        (some (extractBlockText ⟨"b0", "paragraph", none, some []⟩))
        ∉ getAllCommentsForPage c8Env "page" := by
  refine ⟨?_, ?_, rfl, rfl, ?_⟩ <;> decide

/-- C8 (amended): every page-level comment is returned with no quoted
context; every inline comment of a commentable block is returned with that
block's plain text as quoted context when that text is nonempty (and with no
quoted context when the block's text is empty), the same value for all
comments of the block; on the claim's example the inline comment on a block
with text "Revenue grew 12%" carries exactly that string and the page-level
comment carries none. -/
theorem claim_C8_quote_attachment :
    (∀ (env : NotionEnv) (pageId : String) (c : NotionComment),
      c ∈ getCommentsForBlock env pageId →
        CommentEntry.mk c none ∈ getAllCommentsForPage env pageId)
    ∧ (∀ (env : NotionEnv) (pageId : String) (b : Block) (c : NotionComment),
        b ∈ getPageBlocks env pageId →
        (b.type = "child_page" || b.type = "child_database" || b.type = "unsupported") = false →
        c ∈ getCommentsForBlock env b.id →
          CommentEntry.mk c
              (if extractBlockText b = "" then none else some (extractBlockText b))
            ∈ getAllCommentsForPage env pageId)
    ∧ getAllCommentsForPage c8RevenueEnv "pg"
      = [⟨⟨"cp", "dp", 1, "bob", []⟩, none⟩,
          ⟨⟨"ci", "di", 2, "eve", []⟩, some "Revenue grew 12%"⟩] := by
  refine ⟨fun env pageId c hc => ?_, fun env pageId b c hb hty hc => ?_, by rfl⟩
  · exact List.mem_append_left _ (List.mem_map_of_mem _ hc)
  · refine List.mem_append_right _ ?_
    rw [List.mem_flatMap]
    refine ⟨b, hb, ?_⟩
    rw [inlineEntriesForBlock, if_neg (by simp_all)]
    exact List.mem_map_of_mem
      (fun c => CommentEntry.mk c
        (if extractBlockText b = "" then none else some (extractBlockText b))) hc

/-! ## Lemmas: responder failure handling -/

theorem callAI_chat_error (ai : AIEnv) (config : PluginConfig) (prompt : String)
    (h : ∀ b k m sp p, ai.chat b k m sp p = .error ()) :
    callAI ai config prompt = .ok gatewayDownApology
    ∨ callAI ai config prompt = .ok notConfiguredApology
    ∨ callAI ai config prompt = .error () := by
  unfold callAI
  simp only [callChatCompletions, h]
  by_cases hg : config.useGatewayChatCompletions = some false <;>
    by_cases he : firstNonEmpty [config.aiApiKey, some (getEnv ai config.aiApiKeyEnv)] = "" <;>
    simp [hg, he]

theorem processCommentWithAgent_chat_error (ai : AIEnv) (config : PluginConfig)
    (commentText : String) (pageTitle quote : Option String)
    (h : ∀ b k m sp p, ai.chat b k m sp p = .error ()) :
    processCommentWithAgent ai config commentText pageTitle quote = gatewayDownApology
    ∨ processCommentWithAgent ai config commentText pageTitle quote = notConfiguredApology
    ∨ processCommentWithAgent ai config commentText pageTitle quote = agentFailedApology := by
  unfold processCommentWithAgent
  rcases callAI_chat_error ai config (buildPrompt commentText pageTitle quote) h with
    hc | hc | hc <;> rw [hc] <;> simp

/-! ## Lemmas: the stable ascending sort and the latest comment -/

theorem insertByTime_ne_nil (c : NotionComment) (l : List NotionComment) :
    insertByTime c l ≠ [] := by
  cases l with
  | nil => simp [insertByTime]
  | cons d ds =>
    unfold insertByTime
    split <;> simp

theorem mem_insertByTime {x c : NotionComment} {l : List NotionComment} :
    x ∈ insertByTime c l ↔ x = c ∨ x ∈ l := by
  induction l with
  | nil => simp [insertByTime]
  | cons d ds ih =>
    unfold insertByTime
    split
    · simp [or_comm, or_left_comm]
    · simp only [List.mem_cons, ih]
      tauto

theorem mem_sortByTime {x : NotionComment} {l : List NotionComment} :
    x ∈ sortByTime l ↔ x ∈ l := by
  induction l with
  | nil => simp [sortByTime]
  | cons c cs ih => simp [sortByTime, mem_insertByTime, ih]

theorem getLast?_cons_ne_nil {α : Type} (a : α) {t : List α} (h : t ≠ []) :
    (a :: t).getLast? = t.getLast? := by
  cases t with
  | nil => exact absurd rfl h
  | cons b u => exact List.getLast?_cons_cons

theorem getLast?_insertByTime (c : NotionComment) (l : List NotionComment) :
    (insertByTime c l).getLast?
      = if ∃ x ∈ l, c.created_time ≤ x.created_time then l.getLast? else some c := by
  induction l with
  | nil => simp [insertByTime]
  | cons d ds ih =>
    unfold insertByTime
    by_cases h : c.created_time ≤ d.created_time
    · rw [if_pos h, getLast?_cons_ne_nil c (by simp),
        if_pos ⟨d, List.mem_cons_self d ds, h⟩]
    · rw [if_neg h, getLast?_cons_ne_nil d (insertByTime_ne_nil c ds), ih]
      by_cases hex : ∃ x ∈ ds, c.created_time ≤ x.created_time
      · rcases hex with ⟨x, hx, hcx⟩
        have hds : ds ≠ [] := List.ne_nil_of_mem hx
        rw [if_pos ⟨x, hx, hcx⟩, if_pos ⟨x, List.mem_cons_of_mem d hx, hcx⟩,
          getLast?_cons_ne_nil d hds]
      · rw [if_neg hex, if_neg]
        rintro ⟨x, hx, hcx⟩
        rcases List.mem_cons.mp hx with rfl | hx'
        · exact h hcx
        · exact hex ⟨x, hx', hcx⟩

theorem lastMax_eq_none_iff {l : List NotionComment} : lastMax l = none ↔ l = [] := by
  cases l with
  | nil => simp [lastMax]
  | cons c cs =>
    cases h : lastMax cs <;> simp [lastMax, h]

theorem lastMax_mem : ∀ {l : List NotionComment} {m : NotionComment},
    lastMax l = some m → m ∈ l := by
  intro l
  induction l with
  | nil => intro m h; cases h
  | cons c cs ih =>
    intro m h
    cases hcs : lastMax cs with
    | none =>
      simp only [lastMax, hcs, Option.some.injEq] at h
      simp [← h]
    | some m' =>
      simp only [lastMax, hcs, Option.some.injEq] at h
      split at h
      · simp [← h]
      · subst h
        exact List.mem_cons_of_mem c (ih hcs)

theorem lastMax_max : ∀ {l : List NotionComment} {m : NotionComment},
    lastMax l = some m → ∀ x ∈ l, x.created_time ≤ m.created_time := by
  intro l
  induction l with
  | nil => intro m h; cases h
  | cons c cs ih =>
    intro m h x hx
    cases hcs : lastMax cs with
    | none =>
      have hnil : cs = [] := lastMax_eq_none_iff.mp hcs
      subst hnil
      simp only [lastMax, hcs, Option.some.injEq] at h
      subst h
      simp at hx
      subst hx
      exact le_refl _
    | some m' =>
      simp only [lastMax, hcs, Option.some.injEq] at h
      rcases List.mem_cons.mp hx with rfl | hx'
      · split at h <;> subst h
        · exact le_refl _
        · next hlt => exact le_of_not_lt hlt
      · have hle := ih hcs x hx'
        split at h <;> subst h
        · next hlt => exact hle.trans (le_of_lt hlt)
        · exact hle

theorem lastMax_decomp : ∀ {l : List NotionComment} {m : NotionComment},
    lastMax l = some m →
      ∃ pre post, l = pre ++ m :: post
        ∧ ∀ x ∈ post, x.created_time < m.created_time := by
  intro l
  induction l with
  | nil => intro m h; cases h
  | cons c cs ih =>
    intro m h
    cases hcs : lastMax cs with
    | none =>
      have hnil : cs = [] := lastMax_eq_none_iff.mp hcs
      subst hnil
      simp only [lastMax, hcs, Option.some.injEq] at h
      subst h
      exact ⟨[], [], rfl, by simp⟩
    | some m' =>
      simp only [lastMax, hcs, Option.some.injEq] at h
      split at h
      · next hlt =>
        subst h
        exact ⟨[], cs, rfl, fun x hx => lt_of_le_of_lt (lastMax_max hcs x hx) hlt⟩
      · subst h
        rcases ih hcs with ⟨pre, post, hsplit, hpost⟩
        exact ⟨c :: pre, post, by simp [hsplit], hpost⟩

theorem sortByTime_getLast?_eq_lastMax : ∀ l : List NotionComment,
    (sortByTime l).getLast? = lastMax l := by
  intro l
  induction l with
  | nil => rfl
  | cons c cs ih =>
    rw [sortByTime, getLast?_insertByTime]
    cases hcs : lastMax cs with
    | none =>
      have hnil : cs = [] := lastMax_eq_none_iff.mp hcs
      subst hnil
      simp [sortByTime, lastMax]
    | some m =>
      by_cases hcm : c.created_time ≤ m.created_time
      · have hpos : ∃ x ∈ sortByTime cs, c.created_time ≤ x.created_time :=
          ⟨m, mem_sortByTime.mpr (lastMax_mem hcs), hcm⟩
        rw [if_pos hpos, ih, hcs]
        simp only [lastMax, hcs]
        simp [not_lt_of_le hcm]
      · have hneg : ¬∃ x ∈ sortByTime cs, c.created_time ≤ x.created_time := by
          rintro ⟨x, hx, hcx⟩
          exact hcm (hcx.trans (lastMax_max hcs x (mem_sortByTime.mp hx)))
        rw [if_neg hneg]
        simp only [lastMax, hcs]
        simp [lt_of_not_le hcm]

/-! ## Lemmas: the per-thread decision -/

theorem runThread_nil_latest (env : NotionEnv) (ai : AIEnv) (config : PluginConfig)
    (uid : Option String) (pageId : String) (qm : List (String × String))
    (ids : List String) (d : String) (tc : List NotionComment)
    (hL : (sortByTime tc).getLast? = none) :
    runThread env ai config uid pageId qm ids d tc = (ids, []) := by
  unfold runThread
  rw [hL]

theorem runThread_already (env : NotionEnv) (ai : AIEnv) (config : PluginConfig)
    (uid : Option String) (pageId : String) (qm : List (String × String))
    (ids : List String) (d : String) (tc : List NotionComment) (L : NotionComment)
    (hL : (sortByTime tc).getLast? = some L) (h : ids.contains L.id = true) :
    runThread env ai config uid pageId qm ids d tc = (ids, []) := by
  have hm : L.id ∈ ids := by simpa using h
  unfold runThread
  rw [hL]
  simp [hm]

theorem runThread_skip_self (env : NotionEnv) (ai : AIEnv) (config : PluginConfig)
    (uid : Option String) (pageId : String) (qm : List (String × String))
    (ids : List String) (d : String) (tc : List NotionComment) (L : NotionComment)
    (hL : (sortByTime tc).getLast? = some L) (h1 : ids.contains L.id = false)
    (h2 : isSelfAuthored uid L = true) :
    runThread env ai config uid pageId qm ids d tc = (ids ++ [L.id], []) := by
  have hm : L.id ∉ ids := by simpa using h1
  unfold runThread
  rw [hL]
  simp [hm, h2]

theorem runThread_skip_empty (env : NotionEnv) (ai : AIEnv) (config : PluginConfig)
    (uid : Option String) (pageId : String) (qm : List (String × String))
    (ids : List String) (d : String) (tc : List NotionComment) (L : NotionComment)
    (hL : (sortByTime tc).getLast? = some L) (h1 : ids.contains L.id = false)
    (h2 : isSelfAuthored uid L = false) (h3 : jsTrim (extractTextFromComment L) = "") :
    runThread env ai config uid pageId qm ids d tc = (ids ++ [L.id], []) := by
  have hm : L.id ∉ ids := by simpa using h1
  unfold runThread
  rw [hL]
  simp [hm, h2, h3]

theorem runThread_answer (env : NotionEnv) (ai : AIEnv) (config : PluginConfig)
    (uid : Option String) (pageId : String) (qm : List (String × String))
    (ids : List String) (d : String) (tc : List NotionComment) (L : NotionComment)
    (hL : (sortByTime tc).getLast? = some L) (h1 : ids.contains L.id = false)
    (h2 : isSelfAuthored uid L = false) (h3 : jsTrim (extractTextFromComment L) ≠ "") :
    runThread env ai config uid pageId qm ids d tc
      = ((if env.replyOk d (threadResponse env ai config pageId qm d L)
            then ids ++ [L.id] else ids),
          [Effect.respond d (threadPrompt env pageId qm d L),
            Effect.reply d (threadResponse env ai config pageId qm d L)]) := by
  have hm : L.id ∉ ids := by simpa using h1
  unfold runThread threadResponse threadPrompt
  rw [hL]
  simp [hm, h2, h3]

/-- C6: when every responder call fails, the dispatcher returns one of the
fixed user-safe apology strings instead of propagating the failure, that
apology is what gets posted as the thread's reply, and the thread is still
marked processed when the post succeeds. -/
theorem claim_C6_responder_failure :
    ∀ (env : NotionEnv) (ai : AIEnv) (config : PluginConfig) (uid : Option String)
      (pageId : String) (qm : List (String × String)) (ids : List String)
      (d : String) (tc : List NotionComment) (L : NotionComment),
      (∀ b k m sp p, ai.chat b k m sp p = .error ()) →
      (sortByTime tc).getLast? = some L →
      ids.contains L.id = false →
      isSelfAuthored uid L = false →
      jsTrim (extractTextFromComment L) ≠ "" →
      (threadResponse env ai config pageId qm d L = gatewayDownApology
        ∨ threadResponse env ai config pageId qm d L = notConfiguredApology
        ∨ threadResponse env ai config pageId qm d L = agentFailedApology)
      ∧ (runThread env ai config uid pageId qm ids d tc).2
          = [Effect.respond d (threadPrompt env pageId qm d L),
              Effect.reply d (threadResponse env ai config pageId qm d L)]
      ∧ (env.replyOk d (threadResponse env ai config pageId qm d L) = true →
          (runThread env ai config uid pageId qm ids d tc).1 = ids ++ [L.id]) := by
  intro env ai config uid pageId qm ids d tc L hchat hL h1 h2 h3
  have hrun := runThread_answer env ai config uid pageId qm ids d tc L hL h1 h2 h3
  refine ⟨processCommentWithAgent_chat_error ai config (extractTextFromComment L)
      (env.pageTitle pageId) (quoteLookup qm d) hchat, ?_, ?_⟩
  · rw [hrun]
  · intro hok
    rw [hrun]
    simp [hok]

/-- Witness for C6: a concrete thread against an environment whose chat
calls all fail — the reply posted is the generic apology and the comment id
is recorded. -/
theorem claim_C6_responder_failure_witness :
    (runThread
        { commentRounds := fun _ => [], blockRounds := fun _ => [],
          pageTitle := fun _ => none, replyOk := fun _ _ => true }
        { envVars := fun _ => "", chat := fun _ _ _ _ _ => .error () }
        { enabled := true, indexPage := none, watchedPages := [], integrationUserId := none,
          aiBaseUrl := none, aiApiKey := some "k", aiApiKeyEnv := none, aiModel := none,
          useGatewayChatCompletions := some true, gatewayBaseUrl := none,
          gatewayApiKey := none, gatewayApiKeyEnv := none, systemPrompt := none }
        none "pg" [] [] "d1" [⟨"c1", "d1", 7, "alice", [⟨"hello", none, none⟩]⟩]).1
      = ["c1"] := by
  have h := claim_C6_responder_failure
    { commentRounds := fun _ => [], blockRounds := fun _ => [],
      pageTitle := fun _ => none, replyOk := fun _ _ => true }
    { envVars := fun _ => "", chat := fun _ _ _ _ _ => .error () }
    { enabled := true, indexPage := none, watchedPages := [], integrationUserId := none,
      aiBaseUrl := none, aiApiKey := some "k", aiApiKeyEnv := none, aiModel := none,
      useGatewayChatCompletions := some true, gatewayBaseUrl := none,
      gatewayApiKey := none, gatewayApiKeyEnv := none, systemPrompt := none }
    none "pg" [] [] "d1" [⟨"c1", "d1", 7, "alice", [⟨"hello", none, none⟩]⟩]
    ⟨"c1", "d1", 7, "alice", [⟨"hello", none, none⟩]⟩
    (fun _ _ _ _ _ => rfl) rfl rfl rfl (by decide)
  simpa using h.2.2 rfl

/-! ## Lemmas: effect counting -/

theorem countReply_append (d : String) (l1 l2 : List Effect) :
    countReply d (l1 ++ l2) = countReply d l1 + countReply d l2 := by
  simp [countReply, List.filter_append]

theorem countRespond_append (d : String) (l1 l2 : List Effect) :
    countRespond d (l1 ++ l2) = countRespond d l1 + countRespond d l2 := by
  simp [countRespond, List.filter_append]

theorem runThread_effects_shape (env : NotionEnv) (ai : AIEnv) (config : PluginConfig)
    (uid : Option String) (pageId : String) (qm : List (String × String))
    (ids : List String) (d : String) (tc : List NotionComment) :
    (runThread env ai config uid pageId qm ids d tc).2 = []
    ∨ ∃ p r, (runThread env ai config uid pageId qm ids d tc).2
        = [Effect.respond d p, Effect.reply d r] := by
  unfold runThread
  cases (sortByTime tc).getLast? with
  | none => exact Or.inl rfl
  | some L =>
    dsimp only
    split
    · exact Or.inl rfl
    · split
      · exact Or.inl rfl
      · split
        · exact Or.inl rfl
        · exact Or.inr ⟨_, _, rfl⟩

theorem runThread_countReply (env : NotionEnv) (ai : AIEnv) (config : PluginConfig)
    (uid : Option String) (pageId : String) (qm : List (String × String))
    (ids : List String) (d' d : String) (tc : List NotionComment) :
    countReply d' (runThread env ai config uid pageId qm ids d tc).2
      ≤ if d' = d then 1 else 0 := by
  rcases runThread_effects_shape env ai config uid pageId qm ids d tc with h | ⟨p, r, h⟩ <;>
    rw [h]
  · exact Nat.zero_le _
  · by_cases hd : d' = d
    · simp [countReply, hd]
    · have hsym : ¬d = d' := fun h' => hd h'.symm
      simp [countReply, hd, hsym]

theorem runThread_countRespond (env : NotionEnv) (ai : AIEnv) (config : PluginConfig)
    (uid : Option String) (pageId : String) (qm : List (String × String))
    (ids : List String) (d' d : String) (tc : List NotionComment) :
    countRespond d' (runThread env ai config uid pageId qm ids d tc).2
      ≤ if d' = d then 1 else 0 := by
  rcases runThread_effects_shape env ai config uid pageId qm ids d tc with h | ⟨p, r, h⟩ <;>
    rw [h]
  · exact Nat.zero_le _
  · by_cases hd : d' = d
    · simp [countRespond, hd]
    · have hsym : ¬d = d' := fun h' => hd h'.symm
      simp [countRespond, hd, hsym]

theorem runThreads_countReply_notin (env : NotionEnv) (ai : AIEnv) (config : PluginConfig)
    (uid : Option String) (pageId : String) (qm : List (String × String)) (d : String) :
    ∀ (gs : List (String × List NotionComment)) (ids : List String),
      d ∉ gs.map Prod.fst →
      countReply d (runThreads env ai config uid pageId qm ids gs).2 = 0 := by
  intro gs
  induction gs with
  | nil => intro ids _; simp [runThreads, countReply]
  | cons g gs ih =>
    intro ids h
    simp only [List.map_cons, List.mem_cons, not_or] at h
    rw [runThreads]
    dsimp only
    rw [countReply_append, ih _ h.2]
    have := runThread_countReply env ai config uid pageId qm ids d g.1 g.2
    rw [if_neg h.1] at this
    omega

theorem runThreads_countRespond_notin (env : NotionEnv) (ai : AIEnv) (config : PluginConfig)
    (uid : Option String) (pageId : String) (qm : List (String × String)) (d : String) :
    ∀ (gs : List (String × List NotionComment)) (ids : List String),
      d ∉ gs.map Prod.fst →
      countRespond d (runThreads env ai config uid pageId qm ids gs).2 = 0 := by
  intro gs
  induction gs with
  | nil => intro ids _; simp [runThreads, countRespond]
  | cons g gs ih =>
    intro ids h
    simp only [List.map_cons, List.mem_cons, not_or] at h
    rw [runThreads]
    dsimp only
    rw [countRespond_append, ih _ h.2]
    have := runThread_countRespond env ai config uid pageId qm ids d g.1 g.2
    rw [if_neg h.1] at this
    omega

theorem runThreads_countReply_nodup (env : NotionEnv) (ai : AIEnv) (config : PluginConfig)
    (uid : Option String) (pageId : String) (qm : List (String × String)) (d : String) :
    ∀ (gs : List (String × List NotionComment)) (ids : List String),
      (gs.map Prod.fst).Nodup →
      countReply d (runThreads env ai config uid pageId qm ids gs).2 ≤ 1 := by
  intro gs
  induction gs with
  | nil => intro ids _; simp [runThreads, countReply]
  | cons g gs ih =>
    intro ids h
    simp only [List.map_cons, List.nodup_cons] at h
    rw [runThreads]
    dsimp only
    rw [countReply_append]
    by_cases hd : d = g.1
    · have hrest : countReply d (runThreads env ai config uid pageId qm
          (runThread env ai config uid pageId qm ids g.1 g.2).1 gs).2 = 0 :=
        runThreads_countReply_notin env ai config uid pageId qm d gs _ (hd ▸ h.1)
      have hone := runThread_countReply env ai config uid pageId qm ids d g.1 g.2
      rw [if_pos hd] at hone
      omega
    · have hone := runThread_countReply env ai config uid pageId qm ids d g.1 g.2
      rw [if_neg hd] at hone
      have := ih (runThread env ai config uid pageId qm ids g.1 g.2).1 h.2
      omega

theorem runThreads_countRespond_nodup (env : NotionEnv) (ai : AIEnv) (config : PluginConfig)
    (uid : Option String) (pageId : String) (qm : List (String × String)) (d : String) :
    ∀ (gs : List (String × List NotionComment)) (ids : List String),
      (gs.map Prod.fst).Nodup →
      countRespond d (runThreads env ai config uid pageId qm ids gs).2 ≤ 1 := by
  intro gs
  induction gs with
  | nil => intro ids _; simp [runThreads, countRespond]
  | cons g gs ih =>
    intro ids h
    simp only [List.map_cons, List.nodup_cons] at h
    rw [runThreads]
    dsimp only
    rw [countRespond_append]
    by_cases hd : d = g.1
    · have hrest : countRespond d (runThreads env ai config uid pageId qm
          (runThread env ai config uid pageId qm ids g.1 g.2).1 gs).2 = 0 :=
        runThreads_countRespond_notin env ai config uid pageId qm d gs _ (hd ▸ h.1)
      have hone := runThread_countRespond env ai config uid pageId qm ids d g.1 g.2
      rw [if_pos hd] at hone
      omega
    · have hone := runThread_countRespond env ai config uid pageId qm ids d g.1 g.2
      rw [if_neg hd] at hone
      have := ih (runThread env ai config uid pageId qm ids g.1 g.2).1 h.2
      omega

/-! ## Lemmas: discussion grouping -/

theorem addToGroup_keys (gs : List (String × List NotionComment)) (k : String)
    (c : NotionComment) :
    (addToGroup gs k c).map Prod.fst
      = if k ∈ gs.map Prod.fst then gs.map Prod.fst else gs.map Prod.fst ++ [k] := by
  induction gs with
  | nil => simp [addToGroup]
  | cons g gs ih =>
    rw [addToGroup]
    split
    · next heq => simp [heq]
    · next hne =>
      by_cases hk : k ∈ gs.map Prod.fst
      · simp only [List.map_cons, ih, if_pos hk]
        rw [if_pos (List.mem_cons_of_mem _ hk)]
      · simp only [List.map_cons, ih, if_neg hk]
        rw [if_neg]
        · simp
        · simp only [List.mem_cons]
          rintro (h | h)
          · exact hne h.symm
          · exact hk h

theorem foldl_addToGroup_keys_nodup (l : List NotionComment) :
    ∀ gs : List (String × List NotionComment),
      ((gs.map Prod.fst).Nodup) →
      (((l.foldl (fun gs c => addToGroup gs c.discussion_id c) gs)).map Prod.fst).Nodup := by
  induction l with
  | nil => intro gs h; simpa using h
  | cons c cs ih =>
    intro gs h
    rw [List.foldl_cons]
    apply ih
    rw [addToGroup_keys]
    split
    · exact h
    · next hk => simp [List.nodup_append, h, hk]

theorem groupByDiscussion_keys_nodup (l : List NotionComment) :
    ((groupByDiscussion l).map Prod.fst).Nodup :=
  foldl_addToGroup_keys_nodup l [] (by simp)

theorem foldl_addToGroup_keys_sub (l : List NotionComment) :
    ∀ (gs : List (String × List NotionComment)) (k : String),
      k ∈ ((l.foldl (fun gs c => addToGroup gs c.discussion_id c) gs)).map Prod.fst →
      k ∈ gs.map Prod.fst ∨ k ∈ l.map (fun c => c.discussion_id) := by
  induction l with
  | nil => intro gs k h; exact Or.inl (by simpa using h)
  | cons c cs ih =>
    intro gs k h
    rw [List.foldl_cons] at h
    rcases ih _ k h with h' | h'
    · rw [addToGroup_keys] at h'
      split at h'
      · exact Or.inl h'
      · rcases List.mem_append.mp h' with h'' | h''
        · exact Or.inl h''
        · simp at h''
          subst h''
          exact Or.inr (by simp)
    · exact Or.inr (List.mem_cons_of_mem _ h')

theorem groupByDiscussion_keys_sub (l : List NotionComment) (k : String) :
    k ∈ (groupByDiscussion l).map Prod.fst → k ∈ l.map (fun c => c.discussion_id) := by
  intro h
  rcases foldl_addToGroup_keys_sub l [] k h with h' | h'
  · simp at h'
  · exact h'

theorem runPage_countReply_le (env : NotionEnv) (ai : AIEnv) (config : PluginConfig)
    (uid : Option String) (st : ProcessedState) (pageId : String) (d : String) :
    countReply d (runPage env ai config uid st pageId).2 ≤ 1 := by
  unfold runPage
  exact runThreads_countReply_nodup env ai config uid pageId _ d _ _
    (groupByDiscussion_keys_nodup _)

theorem runPage_countRespond_le (env : NotionEnv) (ai : AIEnv) (config : PluginConfig)
    (uid : Option String) (st : ProcessedState) (pageId : String) (d : String) :
    countRespond d (runPage env ai config uid st pageId).2 ≤ 1 := by
  unfold runPage
  exact runThreads_countRespond_nodup env ai config uid pageId _ d _ _
    (groupByDiscussion_keys_nodup _)

theorem runPage_countReply_zero (env : NotionEnv) (ai : AIEnv) (config : PluginConfig)
    (uid : Option String) (st : ProcessedState) (pageId : String) (d : String)
    (h : d ∉ (getAllCommentsForPage env pageId).map (fun e => e.comment.discussion_id)) :
    countReply d (runPage env ai config uid st pageId).2 = 0 := by
  unfold runPage
  apply runThreads_countReply_notin
  intro hk
  apply h
  have := groupByDiscussion_keys_sub
    ((getAllCommentsForPage env pageId).map (fun e => e.comment)) d hk
  simpa [List.map_map, Function.comp] using this

theorem runPage_countRespond_zero (env : NotionEnv) (ai : AIEnv) (config : PluginConfig)
    (uid : Option String) (st : ProcessedState) (pageId : String) (d : String)
    (h : d ∉ (getAllCommentsForPage env pageId).map (fun e => e.comment.discussion_id)) :
    countRespond d (runPage env ai config uid st pageId).2 = 0 := by
  unfold runPage
  apply runThreads_countRespond_notin
  intro hk
  apply h
  have := groupByDiscussion_keys_sub
    ((getAllCommentsForPage env pageId).map (fun e => e.comment)) d hk
  simpa [List.map_map, Function.comp] using this

theorem runPages_countReply_zero (env : NotionEnv) (ai : AIEnv) (config : PluginConfig)
    (uid : Option String) (d : String) :
    ∀ (ps : List String) (st : ProcessedState),
      (∀ p ∈ ps, d ∉ (getAllCommentsForPage env p).map (fun e => e.comment.discussion_id)) →
      countReply d (runPages env ai config uid st ps).2 = 0 := by
  intro ps
  induction ps with
  | nil => intro st _; simp [runPages, countReply]
  | cons p ps ih =>
    intro st h
    rw [runPages]
    dsimp only
    rw [countReply_append, runPage_countReply_zero env ai config uid st p d
      (h p (List.mem_cons_self p ps)), ih _ (fun q hq => h q (List.mem_cons_of_mem p hq))]

theorem runPages_countRespond_zero (env : NotionEnv) (ai : AIEnv) (config : PluginConfig)
    (uid : Option String) (d : String) :
    ∀ (ps : List String) (st : ProcessedState),
      (∀ p ∈ ps, d ∉ (getAllCommentsForPage env p).map (fun e => e.comment.discussion_id)) →
      countRespond d (runPages env ai config uid st ps).2 = 0 := by
  intro ps
  induction ps with
  | nil => intro st _; simp [runPages, countRespond]
  | cons p ps ih =>
    intro st h
    rw [runPages]
    dsimp only
    rw [countRespond_append, runPage_countRespond_zero env ai config uid st p d
      (h p (List.mem_cons_self p ps)), ih _ (fun q hq => h q (List.mem_cons_of_mem p hq))]

theorem runPages_countReply_le (env : NotionEnv) (ai : AIEnv) (config : PluginConfig)
    (uid : Option String) (d : String) :
    ∀ (ps : List String) (st : ProcessedState), ps.Nodup →
      (∀ p ∈ ps, ∀ q ∈ ps,
        d ∈ (getAllCommentsForPage env p).map (fun e => e.comment.discussion_id) →
        d ∈ (getAllCommentsForPage env q).map (fun e => e.comment.discussion_id) → p = q) →
      countReply d (runPages env ai config uid st ps).2 ≤ 1 := by
  intro ps
  induction ps with
  | nil => intro st _ _; simp [runPages, countReply]
  | cons p ps ih =>
    intro st hnd hdisj
    rw [List.nodup_cons] at hnd
    rw [runPages]
    dsimp only
    rw [countReply_append]
    by_cases hp : d ∈ (getAllCommentsForPage env p).map (fun e => e.comment.discussion_id)
    · have hrest : countReply d (runPages env ai config uid
          (runPage env ai config uid st p).1 ps).2 = 0 := by
        apply runPages_countReply_zero
        intro q hq hdq
        exact hnd.1 (hdisj p (List.mem_cons_self p ps) q (List.mem_cons_of_mem p hq) hp hdq ▸ hq)
      have := runPage_countReply_le env ai config uid st p d
      omega
    · have hzero := runPage_countReply_zero env ai config uid st p d hp
      have := ih (runPage env ai config uid st p).1 hnd.2
        (fun a ha b hb => hdisj a (List.mem_cons_of_mem p ha) b (List.mem_cons_of_mem p hb))
      omega

theorem runPages_countRespond_le (env : NotionEnv) (ai : AIEnv) (config : PluginConfig)
    (uid : Option String) (d : String) :
    ∀ (ps : List String) (st : ProcessedState), ps.Nodup →
      (∀ p ∈ ps, ∀ q ∈ ps,
        d ∈ (getAllCommentsForPage env p).map (fun e => e.comment.discussion_id) →
        d ∈ (getAllCommentsForPage env q).map (fun e => e.comment.discussion_id) → p = q) →
      countRespond d (runPages env ai config uid st ps).2 ≤ 1 := by
  intro ps
  induction ps with
  | nil => intro st _ _; simp [runPages, countRespond]
  | cons p ps ih =>
    intro st hnd hdisj
    rw [List.nodup_cons] at hnd
    rw [runPages]
    dsimp only
    rw [countRespond_append]
    by_cases hp : d ∈ (getAllCommentsForPage env p).map (fun e => e.comment.discussion_id)
    · have hrest : countRespond d (runPages env ai config uid
          (runPage env ai config uid st p).1 ps).2 = 0 := by
        apply runPages_countRespond_zero
        intro q hq hdq
        exact hnd.1 (hdisj p (List.mem_cons_self p ps) q (List.mem_cons_of_mem p hq) hp hdq ▸ hq)
      have := runPage_countRespond_le env ai config uid st p d
      omega
    · have hzero := runPage_countRespond_zero env ai config uid st p d hp
      have := ih (runPage env ai config uid st p).1 hnd.2
        (fun a ha b hb => hdisj a (List.mem_cons_of_mem p ha) b (List.mem_cons_of_mem p hb))
      omega

/-- C1: per discussion thread, the latest comment — the last element of the
stable ascending sort by creation time, i.e. the last input element attaining
the maximal timestamp — alone drives the decision (any thread with the same
latest comment is handled identically); the decision is: already-processed
id → no action, self-authored → skip marked processed, empty trimmed text →
skip marked processed, otherwise one answer consisting of one responder
invocation and one reply post; and each discussion receives at most one
responder invocation and one reply post per page and per cycle (for a cycle
whose resolved watch list is duplicate-free and whose discussions belong to
a single page each). -/
theorem claim_C1_latest_drives_decision :
    (∀ tc : List NotionComment, (sortByTime tc).getLast? = lastMax tc)
    ∧ (∀ (tc : List NotionComment) (m : NotionComment), lastMax tc = some m →
        m ∈ tc ∧ (∀ x ∈ tc, x.created_time ≤ m.created_time)
          ∧ ∃ pre post, tc = pre ++ m :: post
              ∧ ∀ x ∈ post, x.created_time < m.created_time)
    ∧ (∀ env ai config uid pageId qm ids d (tc tc' : List NotionComment),
        lastMax tc' = lastMax tc →
        runThread env ai config uid pageId qm ids d tc'
          = runThread env ai config uid pageId qm ids d tc)
    ∧ (∀ env ai config uid pageId qm ids d tc m, lastMax tc = some m →
        runThread env ai config uid pageId qm ids d tc
          = if ids.contains m.id then (ids, [])
            else if isSelfAuthored uid m then (ids ++ [m.id], [])
            else if jsTrim (extractTextFromComment m) = "" then (ids ++ [m.id], [])
            else ((if env.replyOk d (threadResponse env ai config pageId qm d m)
                    then ids ++ [m.id] else ids),
              [Effect.respond d (threadPrompt env pageId qm d m),
                Effect.reply d (threadResponse env ai config pageId qm d m)]))
    ∧ (∀ env ai config uid st pageId d,
        countRespond d (runPage env ai config uid st pageId).2 ≤ 1
        ∧ countReply d (runPage env ai config uid st pageId).2 ≤ 1)
    ∧ (∀ env ai config uid now disk d,
        (resolveWatchedPages env config).Nodup →
        (∀ p ∈ resolveWatchedPages env config, ∀ q ∈ resolveWatchedPages env config,
          d ∈ (getAllCommentsForPage env p).map (fun e => e.comment.discussion_id) →
          d ∈ (getAllCommentsForPage env q).map (fun e => e.comment.discussion_id) →
          p = q) →
        countRespond d (pollCycle env ai config uid now disk).2 ≤ 1
        ∧ countReply d (pollCycle env ai config uid now disk).2 ≤ 1) := by
  refine ⟨sortByTime_getLast?_eq_lastMax,
    fun tc m h => ⟨lastMax_mem h, lastMax_max h, lastMax_decomp h⟩,
    fun env ai config uid pageId qm ids d tc tc' h => ?_,
    fun env ai config uid pageId qm ids d tc m h => ?_,
    fun env ai config uid st pageId d =>
      ⟨runPage_countRespond_le env ai config uid st pageId d,
        runPage_countReply_le env ai config uid st pageId d⟩,
    fun env ai config uid now disk d hnd hdisj => ?_⟩
  · unfold runThread
    rw [sortByTime_getLast?_eq_lastMax, sortByTime_getLast?_eq_lastMax, h]
  · unfold runThread threadResponse threadPrompt
    rw [sortByTime_getLast?_eq_lastMax, h]
  · unfold pollCycle
    split
    · constructor <;> exact Nat.zero_le _
    · dsimp only
      split
      · constructor <;> exact Nat.zero_le _
      · exact ⟨runPages_countRespond_le env ai config uid d _ disk hnd hdisj,
          runPages_countReply_le env ai config uid d _ disk hnd hdisj⟩

/-- Witness for C1: the latest of the two-comment thread is the second
comment (maximal time, last tie), a thread consisting of only that latest
comment is handled identically, and the concrete one-page cycle invokes the
responder and posts at most once for discussion "d". -/
theorem claim_C1_witness :
    (wComment2 ∈ [wComment1, wComment2]
      ∧ (∀ x ∈ [wComment1, wComment2], x.created_time ≤ wComment2.created_time)
      ∧ ∃ pre post, ([wComment1, wComment2] : List NotionComment) = pre ++ wComment2 :: post
          ∧ ∀ x ∈ post, x.created_time < wComment2.created_time)
    ∧ runThread wNotionEnv wAIEnv wConfig (some "bot") "p" [] [] "d" [wComment2]
        = runThread wNotionEnv wAIEnv wConfig (some "bot") "p" [] [] "d" [wComment1, wComment2]
    ∧ countRespond "d" (pollCycle wNotionEnv wAIEnv wConfig (some "bot") 9 ⟨0, []⟩).2 ≤ 1
    ∧ countReply "d" (pollCycle wNotionEnv wAIEnv wConfig (some "bot") 9 ⟨0, []⟩).2 ≤ 1 := by
  refine ⟨claim_C1_latest_drives_decision.2.1 [wComment1, wComment2] wComment2 rfl,
    claim_C1_latest_drives_decision.2.2.1 wNotionEnv wAIEnv wConfig (some "bot") "p" [] [] "d"
      [wComment1, wComment2] [wComment2] rfl,
    (claim_C1_latest_drives_decision.2.2.2.2.2 wNotionEnv wAIEnv wConfig (some "bot") 9 ⟨0, []⟩
      "d" (by decide) ?_).1,
    (claim_C1_latest_drives_decision.2.2.2.2.2 wNotionEnv wAIEnv wConfig (some "bot") 9 ⟨0, []⟩
      "d" (by decide) ?_).2⟩ <;>
  · intro p hp q hq _ _
    have hp' : p = "p" := by simpa [wNotionEnv, wConfig, resolveWatchedPages,
      getWatchedPagesFromIndex, strTruthy] using hp
    have hq' : q = "p" := by simpa [wNotionEnv, wConfig, resolveWatchedPages,
      getWatchedPagesFromIndex, strTruthy] using hq
    rw [hp', hq']

/-- C3: for a thread that reaches the reply-posting step, a failed post
leaves the processed-id list unchanged — so the next cycle runs the whole
answer flow again, responder invocation included — while a successful post
appends the latest comment's id. -/
theorem claim_C3_reply_failure_retry :
    ∀ (env : NotionEnv) (ai : AIEnv) (config : PluginConfig) (uid : Option String)
      (pageId : String) (qm : List (String × String)) (ids : List String)
      (d : String) (tc : List NotionComment) (L : NotionComment),
      (sortByTime tc).getLast? = some L →
      ids.contains L.id = false →
      isSelfAuthored uid L = false →
      jsTrim (extractTextFromComment L) ≠ "" →
      (env.replyOk d (threadResponse env ai config pageId qm d L) = false →
        (runThread env ai config uid pageId qm ids d tc).1 = ids
        ∧ (runThread env ai config uid pageId qm
            (runThread env ai config uid pageId qm ids d tc).1 d tc).2
          = [Effect.respond d (threadPrompt env pageId qm d L),
              Effect.reply d (threadResponse env ai config pageId qm d L)])
      ∧ (env.replyOk d (threadResponse env ai config pageId qm d L) = true →
          (runThread env ai config uid pageId qm ids d tc).1 = ids ++ [L.id]) := by
  intro env ai config uid pageId qm ids d tc L hL h1 h2 h3
  have hrun := runThread_answer env ai config uid pageId qm ids d tc L hL h1 h2 h3
  constructor
  · intro hfail
    have h1' : (runThread env ai config uid pageId qm ids d tc).1 = ids := by
      rw [hrun]
      simp [hfail]
    refine ⟨h1', ?_⟩
    rw [h1']
    rw [runThread_answer env ai config uid pageId qm ids d tc L hL h1 h2 h3]
  · intro hok
    rw [hrun]
    simp [hok]

/-- Witness for C3: against an environment whose reply posts always fail,
the thread's id list stays empty and an immediate re-run still produces the
responder invocation and the reply attempt. -/
theorem claim_C3_reply_failure_retry_witness :
    (runThread wFailEnv wAIEnv wConfig (some "bot") "p" [] [] "d" [wComment1]).1 = []
    ∧ (runThread wFailEnv wAIEnv wConfig (some "bot") "p" []
        (runThread wFailEnv wAIEnv wConfig (some "bot") "p" [] [] "d" [wComment1]).1
        "d" [wComment1]).2
      = [Effect.respond "d" (threadPrompt wFailEnv "p" [] "d" wComment1),
          Effect.reply "d" (threadResponse wFailEnv wAIEnv wConfig "p" [] "d" wComment1)] :=
  (claim_C3_reply_failure_retry wFailEnv wAIEnv wConfig (some "bot") "p" [] [] "d"
    [wComment1] wComment1 rfl rfl rfl (by decide)).1 rfl

/-- C9 (implicit): when `integrationUserId` is absent or empty, the
self-authored check never fires, so a thread whose latest comment was
authored by anyone — the bot itself included — is classified answerable and
triggers one responder invocation and one reply post instead of a silent
skip. -/
theorem claim_C9_missing_uid_skips_selfcheck :
    ∀ (env : NotionEnv) (ai : AIEnv) (config : PluginConfig) (uid : Option String)
      (pageId : String) (qm : List (String × String)) (ids : List String)
      (d : String) (tc : List NotionComment) (L : NotionComment),
      (uid = none ∨ uid = some "") →
      (sortByTime tc).getLast? = some L →
      ids.contains L.id = false →
      jsTrim (extractTextFromComment L) ≠ "" →
      isSelfAuthored uid L = false
      ∧ (runThread env ai config uid pageId qm ids d tc).2
          = [Effect.respond d (threadPrompt env pageId qm d L),
              Effect.reply d (threadResponse env ai config pageId qm d L)]
      ∧ (runThread env ai config uid pageId qm ids d tc).1
          = (if env.replyOk d (threadResponse env ai config pageId qm d L)
              then ids ++ [L.id] else ids) := by
  intro env ai config uid pageId qm ids d tc L huid hL h1 h3
  have hself : isSelfAuthored uid L = false := by
    rcases huid with rfl | rfl <;> simp [isSelfAuthored]
  have hrun := runThread_answer env ai config uid pageId qm ids d tc L hL h1 hself h3
  rw [hrun]
  exact ⟨hself, rfl, rfl⟩

/-- Witness for C9: with `integrationUserId = some ""`, a thread whose only
comment was authored by "bot" still gets the responder invocation and the
reply post. -/
theorem claim_C9_missing_uid_skips_selfcheck_witness :
    isSelfAuthored (some "") wBotComment = false
    ∧ (runThread wNotionEnv wAIEnv wConfig (some "") "p" [] [] "d" [wBotComment]).2
        = [Effect.respond "d" (threadPrompt wNotionEnv "p" [] "d" wBotComment),
            Effect.reply "d" (threadResponse wNotionEnv wAIEnv wConfig "p" [] "d" wBotComment)] :=
  ⟨(claim_C9_missing_uid_skips_selfcheck wNotionEnv wAIEnv wConfig (some "") "p" [] [] "d"
      [wBotComment] wBotComment (Or.inr rfl) rfl rfl (by decide)).1,
    (claim_C9_missing_uid_skips_selfcheck wNotionEnv wAIEnv wConfig (some "") "p" [] [] "d"
      [wBotComment] wBotComment (Or.inr rfl) rfl rfl (by decide)).2.1⟩

/-! ## Lemmas: the state only grows -/

theorem runThread_ids_shape (env : NotionEnv) (ai : AIEnv) (config : PluginConfig)
    (uid : Option String) (pageId : String) (qm : List (String × String))
    (ids : List String) (d : String) (tc : List NotionComment) :
    (runThread env ai config uid pageId qm ids d tc).1 = ids
    ∨ ∃ L, (sortByTime tc).getLast? = some L
        ∧ (runThread env ai config uid pageId qm ids d tc).1 = ids ++ [L.id] := by
  unfold runThread
  cases hL : (sortByTime tc).getLast? with
  | none => exact Or.inl rfl
  | some L =>
    dsimp only
    split
    · exact Or.inl rfl
    · split
      · exact Or.inr ⟨L, rfl, rfl⟩
      · split
        · exact Or.inr ⟨L, rfl, rfl⟩
        · split
          · exact Or.inr ⟨L, rfl, rfl⟩
          · exact Or.inl rfl

theorem runThread_ids_mono (env : NotionEnv) (ai : AIEnv) (config : PluginConfig)
    (uid : Option String) (pageId : String) (qm : List (String × String))
    (ids : List String) (d : String) (tc : List NotionComment) :
    ∀ x ∈ ids, x ∈ (runThread env ai config uid pageId qm ids d tc).1 := by
  intro x hx
  rcases runThread_ids_shape env ai config uid pageId qm ids d tc with h | ⟨L, _, h⟩ <;>
    rw [h]
  · exact hx
  · exact List.mem_append_left _ hx

theorem runThreads_ids_mono (env : NotionEnv) (ai : AIEnv) (config : PluginConfig)
    (uid : Option String) (pageId : String) (qm : List (String × String)) :
    ∀ (gs : List (String × List NotionComment)) (ids : List String),
      ∀ x ∈ ids, x ∈ (runThreads env ai config uid pageId qm ids gs).1 := by
  intro gs
  induction gs with
  | nil => intro ids x hx; exact hx
  | cons g gs ih =>
    intro ids x hx
    rw [runThreads]
    exact ih _ x (runThread_ids_mono env ai config uid pageId qm ids g.1 g.2 x hx)

theorem lookupIds_setAssoc_self (m : List (String × List String)) (p : String)
    (v : List String) : lookupIds (setAssoc m p v) p = v := by
  induction m with
  | nil => simp [setAssoc, lookupIds]
  | cons kv m ih =>
    obtain ⟨k, w⟩ := kv
    by_cases hk : k = p
    · subst hk
      simp [setAssoc, lookupIds]
    · rw [setAssoc, if_neg hk]
      unfold lookupIds at ih ⊢
      rw [List.find?_cons_of_neg _ (by simpa using hk)]
      exact ih

theorem lookupIds_setAssoc_other (m : List (String × List String)) (p q : String)
    (v : List String) (h : q ≠ p) : lookupIds (setAssoc m p v) q = lookupIds m q := by
  have hpq : ¬(p = q) := fun h' => h h'.symm
  induction m with
  | nil =>
    unfold setAssoc lookupIds
    rw [List.find?_cons_of_neg _ (by simpa using hpq)]
  | cons kv m ih =>
    obtain ⟨k, w⟩ := kv
    by_cases hk : k = p
    · subst hk
      rw [setAssoc, if_pos rfl]
      unfold lookupIds
      rw [List.find?_cons_of_neg _ (by simpa using hpq),
        List.find?_cons_of_neg _ (by simpa using hpq)]
    · rw [setAssoc, if_neg hk]
      unfold lookupIds at ih ⊢
      by_cases hkq : k = q
      · subst hkq
        rw [List.find?_cons_of_pos _ (by simp), List.find?_cons_of_pos _ (by simp)]
      · rw [List.find?_cons_of_neg _ (by simpa using hkq),
          List.find?_cons_of_neg _ (by simpa using hkq)]
        exact ih

theorem runPage_processed_mono (env : NotionEnv) (ai : AIEnv) (config : PluginConfig)
    (uid : Option String) (st : ProcessedState) (pageId q : String) :
    ∀ x ∈ lookupIds st.processedComments q,
      x ∈ lookupIds (runPage env ai config uid st pageId).1.processedComments q := by
  intro x hx
  unfold runPage
  by_cases hq : q = pageId
  · subst hq
    dsimp only
    rw [lookupIds_setAssoc_self]
    exact runThreads_ids_mono env ai config uid q _ _ _ x hx
  · dsimp only
    rw [lookupIds_setAssoc_other _ _ _ _ hq]
    exact hx

theorem runPages_processed_mono (env : NotionEnv) (ai : AIEnv) (config : PluginConfig)
    (uid : Option String) :
    ∀ (ps : List String) (st : ProcessedState) (q : String),
      ∀ x ∈ lookupIds st.processedComments q,
        x ∈ lookupIds (runPages env ai config uid st ps).1.processedComments q := by
  intro ps
  induction ps with
  | nil => intro st q x hx; exact hx
  | cons p ps ih =>
    intro st q x hx
    rw [runPages]
    exact ih _ q x (runPage_processed_mono env ai config uid st p q x hx)

/-- C7: the persisted structure only grows — every comment id recorded under
any page at the start of a cycle is still recorded at its end, and
`lastPollTime` does not decrease when the cycle's clock reading is at least
the stored one. -/
theorem claim_C7_state_only_grows :
    ∀ (env : NotionEnv) (ai : AIEnv) (config : PluginConfig) (uid : Option String)
      (now : Nat) (disk : ProcessedState),
      (∀ (q : String), ∀ x ∈ lookupIds disk.processedComments q,
        x ∈ lookupIds (pollCycle env ai config uid now disk).1.processedComments q)
      ∧ (disk.lastPollTime ≤ now →
          disk.lastPollTime ≤ (pollCycle env ai config uid now disk).1.lastPollTime) := by
  intro env ai config uid now disk
  unfold pollCycle
  split
  · exact ⟨fun q x hx => hx, fun _ => le_refl _⟩
  · dsimp only
    split
    · exact ⟨fun q x hx => hx, fun _ => le_refl _⟩
    · exact ⟨fun q x hx => runPages_processed_mono env ai config uid _ disk q x hx,
        fun h => h⟩

/-- Witness for C7: a one-page cycle over the witness environment keeps the
previously recorded id "old" and does not decrease the poll time. -/
theorem claim_C7_state_only_grows_witness :
    "old" ∈ lookupIds
        (pollCycle wNotionEnv wAIEnv wConfig (some "bot") 9
          ⟨4, [("p", ["old"])]⟩).1.processedComments "p"
    ∧ (4 : Nat) ≤ (pollCycle wNotionEnv wAIEnv wConfig (some "bot") 9
          ⟨4, [("p", ["old"])]⟩).1.lastPollTime :=
  ⟨(claim_C7_state_only_grows wNotionEnv wAIEnv wConfig (some "bot") 9
      ⟨4, [("p", ["old"])]⟩).1 "p" "old" (by decide),
    (claim_C7_state_only_grows wNotionEnv wAIEnv wConfig (some "bot") 9
      ⟨4, [("p", ["old"])]⟩).2 (by decide)⟩

/-! ## Lemmas: fetch failures behave as truncated data -/

theorem getCommentsForBlock_purify (env : NotionEnv) (b : String) :
    getCommentsForBlock (purifyEnv env) b = getCommentsForBlock env b := by
  simp [getCommentsForBlock, purifyEnv, collectRounds]

theorem getPageBlocks_purify (env : NotionEnv) (p : String) :
    getPageBlocks (purifyEnv env) p = getPageBlocks env p := by
  simp [getPageBlocks, purifyEnv, collectRounds]

theorem getAllCommentsForPage_purify (env : NotionEnv) (p : String) :
    getAllCommentsForPage (purifyEnv env) p = getAllCommentsForPage env p := by
  unfold getAllCommentsForPage
  rw [getCommentsForBlock_purify, getPageBlocks_purify]
  have hinline : inlineEntriesForBlock (purifyEnv env) = inlineEntriesForBlock env := by
    funext b
    unfold inlineEntriesForBlock
    rw [getCommentsForBlock_purify]
  rw [hinline]

theorem runThreads_purify (env : NotionEnv) (ai : AIEnv) (config : PluginConfig)
    (uid : Option String) (pageId : String) (qm : List (String × String)) :
    ∀ (gs : List (String × List NotionComment)) (ids : List String),
      runThreads (purifyEnv env) ai config uid pageId qm ids gs
        = runThreads env ai config uid pageId qm ids gs := by
  intro gs
  induction gs with
  | nil => intro ids; rfl
  | cons g gs ih =>
    intro ids
    rw [runThreads, runThreads]
    have hthread : runThread (purifyEnv env) ai config uid pageId qm ids g.1 g.2
        = runThread env ai config uid pageId qm ids g.1 g.2 := rfl
    rw [hthread, ih]

theorem runPage_purify (env : NotionEnv) (ai : AIEnv) (config : PluginConfig)
    (uid : Option String) (st : ProcessedState) (pageId : String) :
    runPage (purifyEnv env) ai config uid st pageId = runPage env ai config uid st pageId := by
  unfold runPage
  simp only [getAllCommentsForPage_purify, runThreads_purify]

theorem runPages_purify (env : NotionEnv) (ai : AIEnv) (config : PluginConfig)
    (uid : Option String) :
    ∀ (ps : List String) (st : ProcessedState),
      runPages (purifyEnv env) ai config uid st ps = runPages env ai config uid st ps := by
  intro ps
  induction ps with
  | nil => intro st; rfl
  | cons p ps ih =>
    intro st
    rw [runPages, runPages, runPage_purify, ih]

theorem resolveWatchedPages_purify (env : NotionEnv) (config : PluginConfig) :
    resolveWatchedPages (purifyEnv env) config = resolveWatchedPages env config := by
  unfold resolveWatchedPages getWatchedPagesFromIndex
  rw [getPageBlocks_purify]

/-- C4 (amended): a failure while fetching a page's top-level comments or
block list never reaches the per-page catch — the fetcher absorbs it and
returns what it accumulated, and the whole cycle behaves exactly as it would
on a failure-free environment serving that partial data: the page is
processed, not skipped, and the remaining pages proceed unchanged. -/
theorem claim_C4_fetch_failure_not_fatal :
    ∀ (env : NotionEnv) (ai : AIEnv) (config : PluginConfig) (uid : Option String)
      (now : Nat) (disk : ProcessedState),
      pollCycle env ai config uid now disk = pollCycle (purifyEnv env) ai config uid now disk
      ∧ (∀ b, FetchRound.err ∉ (purifyEnv env).commentRounds b)
      ∧ (∀ p, FetchRound.err ∉ (purifyEnv env).blockRounds p) := by
  intro env ai config uid now disk
  refine ⟨?_, fun b => by simp [purifyEnv], fun p => by simp [purifyEnv]⟩
  unfold pollCycle
  simp only [resolveWatchedPages_purify, runPages_purify]

/-- Counterexample to C4 as stated: on an environment where the block-list
fetch for page "p" throws and the comment listing throws after one round,
the cycle still actions the thread found in the partial data — the
responder is invoked, the reply "R" is posted, and the comment is marked
processed — instead of skipping the page. -/
theorem claim_C4_counterexample :
    c4Env.blockRounds "p" = [FetchRound.err]
    ∧ c4Env.commentRounds "p" = [FetchRound.ok [wComment1] true, FetchRound.err]
    ∧ (pollCycle c4Env wAIEnv wConfig (some "bot") 9 ⟨0, []⟩).2
        = [Effect.respond "d" (buildPrompt "hi" none none), Effect.reply "d" "R"]
    ∧ lookupIds (pollCycle c4Env wAIEnv wConfig (some "bot") 9 ⟨0, []⟩).1.processedComments "p"
        = ["c1"] := by
  exact ⟨rfl, rfl, rfl, rfl⟩

/-! ## Lemmas: a second cycle over unchanged remote data is a no-op -/

theorem runThread_latest_in (env : NotionEnv) (ai : AIEnv) (config : PluginConfig)
    (uid : Option String) (pageId : String) (qm : List (String × String))
    (hreply : ∀ d t, env.replyOk d t = true) (ids : List String) (d : String)
    (tc : List NotionComment) (L : NotionComment)
    (hL : (sortByTime tc).getLast? = some L) :
    L.id ∈ (runThread env ai config uid pageId qm ids d tc).1 := by
  by_cases h1 : ids.contains L.id = true
  · rw [runThread_already env ai config uid pageId qm ids d tc L hL h1]
    simpa using h1
  · have h1' : ids.contains L.id = false := by simpa using h1
    by_cases h2 : isSelfAuthored uid L = true
    · rw [runThread_skip_self env ai config uid pageId qm ids d tc L hL h1' h2]
      simp
    · have h2' : isSelfAuthored uid L = false := by simpa using h2
      by_cases h3 : jsTrim (extractTextFromComment L) = ""
      · rw [runThread_skip_empty env ai config uid pageId qm ids d tc L hL h1' h2' h3]
        simp
      · rw [runThread_answer env ai config uid pageId qm ids d tc L hL h1' h2' h3]
        simp [hreply]

theorem runThreads_latest_in (env : NotionEnv) (ai : AIEnv) (config : PluginConfig)
    (uid : Option String) (pageId : String) (qm : List (String × String))
    (hreply : ∀ d t, env.replyOk d t = true) :
    ∀ (gs : List (String × List NotionComment)) (ids : List String),
      ∀ g ∈ gs, ∀ L, (sortByTime g.2).getLast? = some L →
        L.id ∈ (runThreads env ai config uid pageId qm ids gs).1 := by
  intro gs
  induction gs with
  | nil => intro ids g hg; cases hg
  | cons g0 gs ih =>
    intro ids g hg L hL
    rw [runThreads]
    rcases List.mem_cons.mp hg with rfl | hg'
    · exact runThreads_ids_mono env ai config uid pageId qm gs _ L.id
        (runThread_latest_in env ai config uid pageId qm hreply ids g.1 g.2 L hL)
    · exact ih _ g hg' L hL

theorem runThread_noop (env : NotionEnv) (ai : AIEnv) (config : PluginConfig)
    (uid : Option String) (pageId : String) (qm : List (String × String))
    (ids : List String) (d : String) (tc : List NotionComment)
    (h : ∀ L, (sortByTime tc).getLast? = some L → L.id ∈ ids) :
    runThread env ai config uid pageId qm ids d tc = (ids, []) := by
  cases hL : (sortByTime tc).getLast? with
  | none => exact runThread_nil_latest env ai config uid pageId qm ids d tc hL
  | some L =>
    exact runThread_already env ai config uid pageId qm ids d tc L hL
      (by simpa using h L hL)

theorem runThreads_noop (env : NotionEnv) (ai : AIEnv) (config : PluginConfig)
    (uid : Option String) (pageId : String) (qm : List (String × String)) :
    ∀ (gs : List (String × List NotionComment)) (ids : List String),
      (∀ g ∈ gs, ∀ L, (sortByTime g.2).getLast? = some L → L.id ∈ ids) →
      runThreads env ai config uid pageId qm ids gs = (ids, []) := by
  intro gs
  induction gs with
  | nil => intro ids _; rfl
  | cons g0 gs ih =>
    intro ids h
    rw [runThreads]
    rw [runThread_noop env ai config uid pageId qm ids g0.1 g0.2
      (h g0 (List.mem_cons_self g0 gs))]
    rw [ih ids (fun g hg => h g (List.mem_cons_of_mem g0 hg))]
    rfl

theorem setAssoc_lookup_self (m : List (String × List String)) (p : String)
    (h : hasKey m p) : setAssoc m p (lookupIds m p) = m := by
  induction m with
  | nil =>
    rcases h with ⟨kv, hkv, _⟩
    cases hkv
  | cons kv m ih =>
    obtain ⟨k, w⟩ := kv
    by_cases hk : k = p
    · subst hk
      have hlk : lookupIds ((k, w) :: m) k = w := by
        unfold lookupIds
        rw [List.find?_cons_of_pos _ (by simp)]
      rw [hlk, setAssoc, if_pos rfl]
    · have h' : hasKey m p := by
        rcases h with ⟨kv', hkv', hp'⟩
        rcases List.mem_cons.mp hkv' with rfl | hm
        · exact absurd hp' hk
        · exact ⟨kv', hm, hp'⟩
      have hlk : lookupIds ((k, w) :: m) p = lookupIds m p := by
        unfold lookupIds
        rw [List.find?_cons_of_neg _ (by simpa using hk)]
      rw [hlk, setAssoc, if_neg hk, ih h']

theorem hasKey_setAssoc_self (m : List (String × List String)) (p : String)
    (v : List String) : hasKey (setAssoc m p v) p := by
  induction m with
  | nil => exact ⟨(p, v), by simp [setAssoc], rfl⟩
  | cons kv m ih =>
    obtain ⟨k, w⟩ := kv
    by_cases hk : k = p
    · rw [setAssoc, if_pos hk]
      exact ⟨(k, v), List.mem_cons_self _ _, hk⟩
    · rw [setAssoc, if_neg hk]
      rcases ih with ⟨kv', hkv', hp'⟩
      exact ⟨kv', List.mem_cons_of_mem _ hkv', hp'⟩

theorem hasKey_setAssoc_mono (m : List (String × List String)) (p q : String)
    (v : List String) (h : hasKey m q) : hasKey (setAssoc m p v) q := by
  induction m with
  | nil =>
    rcases h with ⟨kv, hkv, _⟩
    cases hkv
  | cons kv m ih =>
    obtain ⟨k, w⟩ := kv
    by_cases hk : k = p
    · rw [setAssoc, if_pos hk]
      rcases h with ⟨kv', hkv', hp'⟩
      rcases List.mem_cons.mp hkv' with rfl | hm
      · exact ⟨(k, v), List.mem_cons_self _ _, hp'⟩
      · exact ⟨kv', List.mem_cons_of_mem _ hm, hp'⟩
    · rw [setAssoc, if_neg hk]
      rcases h with ⟨kv', hkv', hp'⟩
      rcases List.mem_cons.mp hkv' with rfl | hm
      · exact ⟨(k, w), List.mem_cons_self _ _, hp'⟩
      · rcases ih ⟨kv', hm, hp'⟩ with ⟨kv2, hkv2, hp2⟩
        exact ⟨kv2, List.mem_cons_of_mem _ hkv2, hp2⟩

theorem runPage_hasKey_self (env : NotionEnv) (ai : AIEnv) (config : PluginConfig)
    (uid : Option String) (st : ProcessedState) (p : String) :
    hasKey (runPage env ai config uid st p).1.processedComments p := by
  simp only [runPage]
  exact hasKey_setAssoc_self _ _ _

theorem runPage_hasKey_mono (env : NotionEnv) (ai : AIEnv) (config : PluginConfig)
    (uid : Option String) (st : ProcessedState) (p q : String)
    (h : hasKey st.processedComments q) :
    hasKey (runPage env ai config uid st p).1.processedComments q := by
  simp only [runPage]
  exact hasKey_setAssoc_mono _ _ _ _ h

theorem runPages_hasKey_mono (env : NotionEnv) (ai : AIEnv) (config : PluginConfig)
    (uid : Option String) :
    ∀ (ps : List String) (st : ProcessedState) (q : String),
      hasKey st.processedComments q →
      hasKey (runPages env ai config uid st ps).1.processedComments q := by
  intro ps
  induction ps with
  | nil => intro st q h; exact h
  | cons p ps ih =>
    intro st q h
    rw [runPages]
    exact ih _ q (runPage_hasKey_mono env ai config uid st p q h)

theorem runPages_hasKey_of_mem (env : NotionEnv) (ai : AIEnv) (config : PluginConfig)
    (uid : Option String) :
    ∀ (ps : List String) (st : ProcessedState) (p : String), p ∈ ps →
      hasKey (runPages env ai config uid st ps).1.processedComments p := by
  intro ps
  induction ps with
  | nil => intro st p hp; cases hp
  | cons q ps ih =>
    intro st p hp
    rw [runPages]
    rcases List.mem_cons.mp hp with rfl | hp'
    · exact runPages_hasKey_mono env ai config uid ps _ p
        (runPage_hasKey_self env ai config uid st p)
    · exact ih _ p hp'

theorem runPage_latest_recorded (env : NotionEnv) (ai : AIEnv) (config : PluginConfig)
    (uid : Option String) (hreply : ∀ d t, env.replyOk d t = true)
    (st : ProcessedState) (p : String) :
    ∀ g ∈ groupByDiscussion ((getAllCommentsForPage env p).map (fun e => e.comment)),
      ∀ L, (sortByTime g.2).getLast? = some L →
        L.id ∈ lookupIds (runPage env ai config uid st p).1.processedComments p := by
  intro g hg L hL
  simp only [runPage, lookupIds_setAssoc_self]
  exact runThreads_latest_in env ai config uid p _ hreply _ _ g hg L hL

theorem runPages_latest_recorded (env : NotionEnv) (ai : AIEnv) (config : PluginConfig)
    (uid : Option String) (hreply : ∀ d t, env.replyOk d t = true) :
    ∀ (ps : List String) (st : ProcessedState) (p : String), p ∈ ps →
      ∀ g ∈ groupByDiscussion ((getAllCommentsForPage env p).map (fun e => e.comment)),
        ∀ L, (sortByTime g.2).getLast? = some L →
          L.id ∈ lookupIds (runPages env ai config uid st ps).1.processedComments p := by
  intro ps
  induction ps with
  | nil => intro st p hp; cases hp
  | cons q ps ih =>
    intro st p hp g hg L hL
    rw [runPages]
    rcases List.mem_cons.mp hp with rfl | hp'
    · exact runPages_processed_mono env ai config uid ps _ p L.id
        (runPage_latest_recorded env ai config uid hreply st p g hg L hL)
    · exact ih _ p hp' g hg L hL

theorem runPage_noop (env : NotionEnv) (ai : AIEnv) (config : PluginConfig)
    (uid : Option String) (st : ProcessedState) (p : String)
    (hkey : hasKey st.processedComments p)
    (hall : ∀ g ∈ groupByDiscussion ((getAllCommentsForPage env p).map (fun e => e.comment)),
      ∀ L, (sortByTime g.2).getLast? = some L → L.id ∈ lookupIds st.processedComments p) :
    runPage env ai config uid st p = (st, []) := by
  simp only [runPage]
  rw [runThreads_noop env ai config uid p _ _ _ hall]
  rw [setAssoc_lookup_self _ _ hkey]

theorem runPages_noop (env : NotionEnv) (ai : AIEnv) (config : PluginConfig)
    (uid : Option String) :
    ∀ (ps : List String) (st : ProcessedState),
      (∀ p ∈ ps, hasKey st.processedComments p
        ∧ ∀ g ∈ groupByDiscussion ((getAllCommentsForPage env p).map (fun e => e.comment)),
            ∀ L, (sortByTime g.2).getLast? = some L →
              L.id ∈ lookupIds st.processedComments p) →
      runPages env ai config uid st ps = (st, []) := by
  intro ps
  induction ps with
  | nil => intro st _; rfl
  | cons p ps ih =>
    intro st h
    rw [runPages]
    rw [runPage_noop env ai config uid st p (h p (List.mem_cons_self p ps)).1
      (h p (List.mem_cons_self p ps)).2]
    rw [ih st (fun q hq => h q (List.mem_cons_of_mem p hq))]
    rfl

/-- C2 (amended): when every reply post succeeds, a second cycle over the
same remote data produces no responder invocations and no reply posts, and
leaves `processedComments` exactly as the first cycle wrote it; only
`lastPollTime` is overwritten with the second cycle's clock. -/
theorem claim_C2_idempotence :
    ∀ (env : NotionEnv) (ai : AIEnv) (config : PluginConfig) (uid : Option String)
      (t1 t2 : Nat) (s0 : ProcessedState),
      (∀ d t, env.replyOk d t = true) →
      (pollCycle env ai config uid t2 (pollCycle env ai config uid t1 s0).1).2 = []
      ∧ (pollCycle env ai config uid t2
            (pollCycle env ai config uid t1 s0).1).1.processedComments
          = (pollCycle env ai config uid t1 s0).1.processedComments := by
  intro env ai config uid t1 t2 s0 hreply
  by_cases hen : (!config.enabled) = true
  · simp [pollCycle, hen]
  · by_cases hw : (resolveWatchedPages env config).isEmpty = true
    · simp [pollCycle, hen, hw]
    · have hpoll1 : (pollCycle env ai config uid t1 s0).1
        = { (runPages env ai config uid s0 (resolveWatchedPages env config)).1 with
              lastPollTime := t1 } := by
        simp [pollCycle, hen, hw]
      have hcond : ∀ p ∈ resolveWatchedPages env config,
          hasKey (pollCycle env ai config uid t1 s0).1.processedComments p
          ∧ ∀ g ∈ groupByDiscussion
              ((getAllCommentsForPage env p).map (fun e => e.comment)),
              ∀ L, (sortByTime g.2).getLast? = some L →
                L.id ∈ lookupIds (pollCycle env ai config uid t1 s0).1.processedComments p := by
        intro p hp
        rw [hpoll1]
        exact ⟨runPages_hasKey_of_mem env ai config uid _ s0 p hp,
          fun g hg L hL =>
            runPages_latest_recorded env ai config uid hreply _ s0 p hp g hg L hL⟩
      have hnoop := runPages_noop env ai config uid (resolveWatchedPages env config)
        (pollCycle env ai config uid t1 s0).1 hcond
      rw [hpoll1] at hnoop
      constructor
      · simp [pollCycle, hen, hw, hnoop]
      · simp [pollCycle, hen, hw, hnoop]

/-- Counterexample to C2 as stated: with reply posts succeeding, the second
cycle's persisted state differs from the first (the stored poll time is
overwritten with the later clock reading); and with reply posts failing, the
second cycle emits effects again (the retry mandated by the reply-failure
rule). -/
theorem claim_C2_counterexample :
    (pollCycle wNotionEnv wAIEnv wConfig (some "bot") 1
        (pollCycle wNotionEnv wAIEnv wConfig (some "bot") 0 ⟨0, []⟩).1).1
      ≠ (pollCycle wNotionEnv wAIEnv wConfig (some "bot") 0 ⟨0, []⟩).1
    ∧ (pollCycle wFailEnv wAIEnv wConfig (some "bot") 1
        (pollCycle wFailEnv wAIEnv wConfig (some "bot") 0 ⟨0, []⟩).1).2 ≠ [] := by
  constructor <;> decide

/-- Witness for C2 at the witness environment (replies always succeed): the
second cycle emits nothing and preserves the processed-comment map. -/
theorem claim_C2_idempotence_witness :
    (pollCycle wNotionEnv wAIEnv wConfig (some "bot") 1
        (pollCycle wNotionEnv wAIEnv wConfig (some "bot") 0 ⟨0, []⟩).1).2 = []
    ∧ (pollCycle wNotionEnv wAIEnv wConfig (some "bot") 1
          (pollCycle wNotionEnv wAIEnv wConfig (some "bot") 0 ⟨0, []⟩).1).1.processedComments
        = (pollCycle wNotionEnv wAIEnv wConfig (some "bot") 0 ⟨0, []⟩).1.processedComments :=
  claim_C2_idempotence wNotionEnv wAIEnv wConfig (some "bot") 0 1 ⟨0, []⟩ (fun _ _ => rfl)

/-- Witness for C8 at the "Revenue grew 12%" environment: the page-level
comment appears with no quote and the inline comment with exactly the
block's text. -/
theorem claim_C8_quote_attachment_witness :
    CommentEntry.mk ⟨"cp", "dp", 1, "bob", []⟩ none ∈ getAllCommentsForPage c8RevenueEnv "pg"
    ∧ CommentEntry.mk ⟨"ci", "di", 2, "eve", []⟩ (some "Revenue grew 12%")
        ∈ getAllCommentsForPage c8RevenueEnv "pg" := by
  constructor
  · exact claim_C8_quote_attachment.1 c8RevenueEnv "pg" ⟨"cp", "dp", 1, "bob", []⟩ (by decide)
  · have := claim_C8_quote_attachment.2.1 c8RevenueEnv "pg"
      ⟨"rb", "paragraph", none, some [⟨"Revenue grew 12%", none, none⟩]⟩
      ⟨"ci", "di", 2, "eve", []⟩ (by decide) (by decide) (by decide)
    simpa using this

end NotionPlugin
